import Mathlib

/-!
Verification of the MIDI looper sequencing engine.

The definitions below are a shallow embedding of the C++ sources
(`quantize.cpp`, `scales.h`, `directions.cpp`, `midi.cpp`, `playback.cpp`,
`recording.cpp`, `generate.cpp`, `midilooper.cpp`).  C `int` values are
modelled as `Int` (with `Int.tmod`/`Int.tdiv` for the C `%` and `/`
operators, which truncate toward zero) or as `Nat` where every value that
can reach the function is non-negative and no truncated subtraction occurs;
`uint32_t` arithmetic is `Nat` reduced modulo `2 ^ 32`; `float` values that
only ever feed comparisons are modelled as `ℚ`.  Fixed C arrays indexed by
MIDI note or step are modelled as functions out of `Nat`; `for` loops that
mutate state are `List.foldl` over the index range.
-/

namespace MidiLooper

-- ============================================================================
-- math.h helpers
-- ============================================================================

/-- `clamp` from `math.h`: saturate an `Int` into `[lo, hi]`. -/
def clamp (x lo hi : Int) : Int :=
  if x < lo then lo else if x > hi then hi else x

/-- `clampParam` from `types.h` (same body as `clamp`). -/
def clampParam (val minVal maxVal : Int) : Int :=
  if val < minVal then minVal else if val > maxVal then maxVal else val

/-- `clampf` from `math.h`, on the rational model of `float`. -/
def clampf (x lo hi : ℚ) : ℚ :=
  if x < lo then lo else if x > hi then hi else x

/-- `MAX_STEPS` from `config.h`. -/
def MAX_STEPS : Nat := 128

/-- `MAX_EVENTS_PER_STEP` from `config.h`. -/
def MAX_EVENTS_PER_STEP : Nat := 8

/-- `MAX_DELAYED_NOTES` from `config.h`. -/
def MAX_DELAYED_NOTES : Nat := 64

/-- `MAX_TRACKS` from `config.h`. -/
def MAX_TRACKS : Nat := 4

/-- `safeStepIndex` from `math.h`. -/
def safeStepIndex (idx : Int) : Nat :=
  if idx < 0 then 0 else if idx ≥ (MAX_STEPS : Int) then MAX_STEPS - 1 else idx.toNat

/-- `safeTrackIndex` from `math.h`. -/
def safeTrackIndex (idx : Int) : Nat :=
  if idx < 0 then 0 else if idx ≥ (MAX_TRACKS : Int) then MAX_TRACKS - 1 else idx.toNat

/-- `safeNoteIndex` from `math.h`. -/
def safeNoteIndex (idx : Int) : Nat :=
  if idx < 0 then 0 else if idx ≥ 128 then 127 else idx.toNat

-- ============================================================================
-- random.h : SplitMix32 PRNG
-- ============================================================================

/-- `2 ^ 32`, the modulus of `uint32_t` arithmetic. -/
def U32 : Nat := 4294967296

/-- `nextRand` from `random.h` (SplitMix32).  Returns the drawn value and
the updated state; the state update is `state += 0x9E3779B9`. -/
def nextRand (state : Nat) : Nat × Nat :=
  let s' := (state + 0x9E3779B9) % U32
  let z1 := ((s' ^^^ (s' >>> 16)) * 0x85EBCA6B) % U32
  let z2 := ((z1 ^^^ (z1 >>> 13)) * 0xC2B2AE35) % U32
  (z2 ^^^ (z2 >>> 16), s')

/-- `randRange` from `random.h`: inclusive range; when `min ≥ max` the state
is left untouched and `min` is returned. -/
def randRange (state : Nat) (lo hi : Int) : Int × Nat :=
  if lo ≥ hi then (lo, state)
  else
    let (z, s') := nextRand state
    (lo + (z % (hi - lo + 1).toNat : Nat), s')

/-- `randFloat` from `random.h`, on the rational model of `float`:
`(nextRand() & 0xFFFFFF) / 0xFFFFFF`. -/
def randFloat (state : Nat) : ℚ × Nat :=
  let (z, s') := nextRand state
  ((((z &&& 0xFFFFFF) : Nat) : ℚ) / (0xFFFFFF : ℚ), s')

-- ============================================================================
-- scales.h : scale quantization
-- ============================================================================

/-- `scaleIntervals` from `scales.h` (semitone offsets from the root; the
table is indexed with `scaleType - 1`). -/
def scaleIntervals (scaleIdx : Nat) (degree : Nat) : Int :=
  match scaleIdx, degree with
  | 0, d => [0, 2, 4, 5, 7, 9, 11].getD d 0
  | 1, d => [0, 2, 3, 5, 7, 9, 10].getD d 0
  | 2, d => [0, 1, 3, 5, 7, 8, 10].getD d 0
  | 3, d => [0, 2, 4, 6, 7, 9, 11].getD d 0
  | 4, d => [0, 2, 4, 5, 7, 9, 10].getD d 0
  | 5, d => [0, 2, 3, 5, 7, 8, 10].getD d 0
  | 6, d => [0, 1, 3, 5, 6, 8, 10].getD d 0
  | 7, d => [0, 2, 3, 5, 7, 8, 11].getD d 0
  | 8, d => [0, 2, 3, 5, 7, 9, 11].getD d 0
  | 9, d => [0, 2, 4, 7, 9, 0, 0].getD d 0
  | 10, d => [0, 3, 5, 7, 10, 0, 0].getD d 0
  | _, _ => 0

/-- `scaleSizes` from `scales.h`. -/
def scaleSizes (scaleIdx : Nat) : Nat :=
  [7, 7, 7, 7, 7, 7, 7, 7, 7, 5, 5].getD scaleIdx 7

/-- `PC_TO_WHITE_KEY` from `scales.h`: pitch class (0-11) to white-key
index (0-6); black keys snap down. -/
def PC_TO_WHITE_KEY (pc : Nat) : Nat :=
  [0, 0, 1, 1, 2, 3, 3, 4, 4, 5, 5, 6].getD pc 0

/-- `SCALE_OFF` from the `ScaleType` enum in `scales.h`. -/
def SCALE_OFF : Int := 0

/-- `quantizeToScale` from `scales.h`.  `note` is a `uint8_t` MIDI note,
`root` and `scaleType` are C `int`s. -/
def quantizeToScale (note : Nat) (root scaleType : Int) : Nat :=
  if scaleType = SCALE_OFF then note
  else
    let scaleIdx := (scaleType - 1).toNat
    let scaleSize := scaleSizes scaleIdx
    let pc := note % 12
    let octave := note / 12
    let whiteKeyIdx := PC_TO_WHITE_KEY pc
    let extraOctave := whiteKeyIdx / scaleSize
    let scaleDegree := whiteKeyIdx % scaleSize
    let outNote : Int :=
      ((octave + extraOctave : Nat) : Int) * 12 + root + scaleIntervals scaleIdx scaleDegree
    (clamp outNote 0 127).toNat

-- ============================================================================
-- quantize.cpp : effective quantize, step snapping, duration rounding
-- ============================================================================

/-- `QUANTIZE_VALUES` from `types.h`. -/
def QUANTIZE_VALUES (idx : Nat) : Nat :=
  [1, 2, 4, 8, 16].getD idx 1

/-- The descending `for (int q = maxQ; q >= 1; q--)` loop body of
`findValidQuantize` in `quantize.cpp`, as structural recursion on `q`. -/
def findValidQuantizeLoop (loopLen : Nat) : Nat → Nat
  | 0 => 1
  | q + 1 => if loopLen % (q + 1) = 0 then q + 1 else findValidQuantizeLoop loopLen q

/-- `findValidQuantize` from `quantize.cpp`: largest `q ≤ min targetQuantize
loopLen` dividing `loopLen`, falling back to 1. -/
def findValidQuantize (loopLen targetQuantize : Nat) : Nat :=
  findValidQuantizeLoop loopLen (min targetQuantize loopLen)

/-- `getEffectiveQuantize` from `quantize.cpp`, with the track's loop length
and division index already read out of the parameter array. -/
def getEffectiveQuantize (loopLen divisionIdx : Nat) : Nat :=
  findValidQuantize loopLen (QUANTIZE_VALUES divisionIdx)

/-- `snapStepSubclock` from `quantize.cpp`.  `stepFraction` and `threshold`
model the `float` arguments. -/
def snapStepSubclock (rawStep : Nat) (stepFraction threshold : ℚ) (loopLen : Nat) : Nat :=
  if stepFraction < threshold then rawStep
  else
    let snapped := rawStep + 1
    if snapped > loopLen then 1 else snapped

/-- `snapToDivisionSubclock` from `quantize.cpp`. -/
def snapToDivisionSubclock (rawStep : Nat) (stepFraction : ℚ) (quantize : Nat)
    (threshold : ℚ) (loopLen : Nat) : Nat :=
  let stepInDivision := (rawStep - 1) % quantize
  let divisionPosition : ℚ := ((stepInDivision : ℚ) + stepFraction) / (quantize : ℚ)
  let currentDivision := (rawStep - 1) / quantize
  if divisionPosition ≥ threshold then
    let quantizedStep := (currentDivision + 1) * quantize + 1
    if quantizedStep > loopLen then 1 else quantizedStep
  else
    currentDivision * quantize + 1

/-- `calcQuantizedDuration` from `quantize.cpp`.  Both arguments are
non-negative at every call site, so the C `int` arithmetic is `Nat`. -/
def calcQuantizedDuration (duration quantize : Nat) : Nat :=
  if quantize ≤ 1 then duration
  else
    let quantizedDur := ((duration + quantize / 2) / quantize) * quantize
    if quantizedDur < quantize then quantize else quantizedDur

-- ============================================================================
-- directions.cpp : step position per direction mode
-- ============================================================================

/-- `dirForward` from `directions.cpp`. -/
def dirForward (clockCount loopLen : Int) : Int :=
  (clockCount - 1).tmod loopLen + 1

/-- `dirReverse` from `directions.cpp`. -/
def dirReverse (clockCount loopLen : Int) : Int :=
  loopLen - (clockCount - 1).tmod loopLen

/-- `dirPendulum` from `directions.cpp`. -/
def dirPendulum (clockCount loopLen : Int) : Int :=
  let cycle := 2 * (loopLen - 1)
  let posInCycle := (clockCount - 1).tmod cycle
  if posInCycle < loopLen then posInCycle + 1 else 2 * loopLen - 1 - posInCycle

/-- `dirPingPong` from `directions.cpp`. -/
def dirPingPong (clockCount loopLen : Int) : Int :=
  let cycle := 2 * loopLen
  let posInCycle := (clockCount - 1).tmod cycle
  if posInCycle < loopLen then posInCycle + 1 else 2 * loopLen - posInCycle

/-- `dirStride` from `directions.cpp`. -/
def dirStride (clockCount loopLen strideSize : Int) : Int :=
  ((clockCount - 1) * strideSize).tmod loopLen + 1

/-- `dirOddEven` from `directions.cpp`. -/
def dirOddEven (clockCount loopLen : Int) : Int :=
  let pos := (clockCount - 1).tmod loopLen + 1
  let numOdds := (loopLen + 1).tdiv 2
  if pos ≤ numOdds then (pos - 1) * 2 + 1 else (pos - numOdds) * 2

/-- `dirHopscotch` from `directions.cpp`. -/
def dirHopscotch (clockCount loopLen : Int) : Int :=
  let pos := (clockCount - 1).tmod (loopLen * 2) + 1
  let stepIndex := (pos + 1).tdiv 2
  if pos.tmod 2 = 1 then
    (stepIndex - 1).tmod loopLen + 1
  else
    let nextForward := stepIndex.tmod loopLen + 1
    (nextForward - 2 + loopLen).tmod loopLen + 1

/-- `dirConverge` from `directions.cpp`. -/
def dirConverge (clockCount loopLen : Int) : Int :=
  let pos := (clockCount - 1).tmod loopLen + 1
  let pairIndex := (pos + 1).tdiv 2
  if pos.tmod 2 = 1 then pairIndex else loopLen - pairIndex + 1

/-- `dirDiverge` from `directions.cpp`. -/
def dirDiverge (clockCount loopLen : Int) : Int :=
  let pos := (clockCount - 1).tmod loopLen + 1
  let mid := (loopLen + 1).tdiv 2
  let pairIndex := (pos + 1).tdiv 2
  if pos.tmod 2 = 1 then mid - pairIndex + 1 else mid + pairIndex

/-- `dirRandom` from `directions.cpp`: a uniform step in `1..=loopLen`. -/
def dirRandom (loopLen : Int) (randState : Nat) : Int × Nat :=
  randRange randState 1 loopLen

/-- `getStepForClock` from `directions.cpp`: dispatch over the strategy
table (`dirBrownianPlaceholder` and `dirShufflePlaceholder` at indices 9
and 11 both compute the forward step; the stateful modes are handled in
`calculateTrackStep`).  The PRNG state is threaded explicitly in place of
the C reference. -/
def getStepForClock (clockCount loopLen dir strideSize : Int) (randState : Nat) :
    Int × Nat :=
  if loopLen = 1 then (1, randState)
  else if clockCount < 1 then (0, randState)
  else if dir < 0 ∨ dir ≥ 12 then (dirForward clockCount loopLen, randState)
  else
    match dir.toNat with
    | 0 => (dirForward clockCount loopLen, randState)
    | 1 => (dirReverse clockCount loopLen, randState)
    | 2 => (dirPendulum clockCount loopLen, randState)
    | 3 => (dirPingPong clockCount loopLen, randState)
    | 4 => (dirStride clockCount loopLen strideSize, randState)
    | 5 => (dirOddEven clockCount loopLen, randState)
    | 6 => (dirHopscotch clockCount loopLen, randState)
    | 7 => (dirConverge clockCount loopLen, randState)
    | 8 => (dirDiverge clockCount loopLen, randState)
    | 9 => (dirForward clockCount loopLen, randState)
    | 10 => dirRandom loopLen randState
    | _ => (dirForward clockCount loopLen, randState)

/-- `BROWNIAN_DELTA_MIN` from `config.h`. -/
def BROWNIAN_DELTA_MIN : Int := -2

/-- `BROWNIAN_DELTA_MAX` from `config.h`. -/
def BROWNIAN_DELTA_MAX : Int := 2

/-- `updateBrownianStep` from `directions.cpp`. -/
def updateBrownianStep (currentPos loopLen : Int) (randState : Nat) : Int × Nat :=
  let (delta, s') := randRange randState BROWNIAN_DELTA_MIN BROWNIAN_DELTA_MAX
  let delta := if delta = 0 then 1 else delta
  let newPos := currentPos + delta
  ((newPos - 1 + loopLen * 100).tmod loopLen + 1, s')

/-- One Fisher-Yates iteration of `generateShuffleOrder`: draw
`j ∈ [0, i]` and swap `order[i]` with `order[j]`. -/
def shuffleSwap (acc : (Nat → Nat) × Nat) (i : Nat) : (Nat → Nat) × Nat :=
  let (order, st) := acc
  let (j, st') := randRange st 0 (i : Int)
  let jn := j.toNat
  (fun k => if k = i then order jn else if k = jn then order i else order k, st')

/-- `generateShuffleOrder` from `directions.cpp`: write the identity
`1..=loopLen` into the first `loopLen` slots, then Fisher-Yates shuffle
with `i` running from `loopLen - 1` down to 1. -/
def generateShuffleOrder (order : Nat → Nat) (loopLen : Nat) (randState : Nat) :
    (Nat → Nat) × Nat :=
  let init : Nat → Nat := fun i => if i < loopLen then i + 1 else order i
  (List.range' 1 (loopLen - 1)).reverse.foldl shuffleSwap (init, randState)

/-- The steps a direction mode returns over `loopLen` consecutive clocks
`clock_count = 1..loopLen`, starting fresh (claim C3's sequence). -/
def stepsForClocks (dir : Int) (loopLen : Nat) (strideSize : Int) (randState : Nat) :
    List Int :=
  (List.range loopLen).map fun (i : Nat) =>
    (getStepForClock ((i : Int) + 1) (loopLen : Int) dir strideSize randState).1

/-- The list `[1, 2, ..., L]` a single direction cycle should permute. -/
def oneToL (L : Nat) : List Int :=
  (List.range L).map fun (i : Nat) => (i : Int) + 1

-- ============================================================================
-- types.h : data structures
-- ============================================================================

/-- A three-byte MIDI message sent through `NT_sendMidi3ByteMessage`,
together with its destination mask. -/
structure MidiMsg where
  whereMask : Nat
  status : Nat
  d1 : Nat
  d2 : Nat
deriving DecidableEq, Repr

/-- `NoteEvent` from `types.h`. -/
structure NoteEvent where
  note : Nat
  velocity : Nat
  duration : Nat
deriving DecidableEq, Repr

/-- `StepEvents` from `types.h`; the C `count` field is `events.length`. -/
structure StepEvents where
  events : List NoteEvent
deriving DecidableEq, Repr

/-- `PlayingNote` as used by `midi.cpp` and initialised in `construct`
(`remaining`, `outCh`, `where`, `active`). -/
structure PlayingNote where
  remaining : Nat
  outCh : Int
  whereMask : Nat
  active : Bool
deriving DecidableEq, Repr

/-- `DelayedNote` from `types.h`. -/
structure DelayedNote where
  note : Nat
  velocity : Nat
  track : Nat
  outCh : Int
  duration : Nat
  delay : Nat
  whereMask : Nat
  active : Bool
deriving DecidableEq, Repr

/-- `HeldNote` from `types.h`. -/
structure HeldNote where
  note : Nat
  velocity : Nat
  track : Nat
  quantizedStep : Nat
  effectiveStep : Nat
  quantize : Nat
  loopLen : Nat
  rawStep : Nat
  active : Bool
deriving DecidableEq, Repr

/-- `TrackCache` from `types.h`. -/
structure TrackCache where
  effectiveQuantize : Nat
  loopLen : Nat
  dirty : Bool
deriving DecidableEq, Repr

/-- `TrackState` from `types.h` (the `data.steps` array is `steps`).  The
fixed C arrays are functions out of the index type. -/
structure TrackState where
  steps : Nat → StepEvents
  playing : Nat → PlayingNote
  activeNotes : Nat → Nat
  shuffleOrder : Nat → Nat
  clockCount : Nat
  divCounter : Nat
  loopCount : Nat
  step : Nat
  lastStep : Nat
  brownianPos : Nat
  shufflePos : Nat
  activeVel : Nat
  octavePlayCount : Nat
  lastEnabled : Int
  cache : TrackCache
  randState : Nat

/-- `TransportState` from `types.h`. -/
inductive TransportState where
  | STOPPED
  | RUNNING
deriving DecidableEq, Repr

/-- `RecordState` from `types.h`. -/
inductive RecordState where
  | IDLE
  | LIVE
  | STEP
  | LIVE_PENDING
deriving DecidableEq, Repr

/-- The fields of `MidiLooper_DTC` touched by the embedded operations
(timing floats are modelled as `ℚ`). -/
structure DTC where
  transportState : TransportState
  recordState : RecordState
  stepTime : ℚ
  stepDuration : ℚ
  stepRecPos : Nat
  inputVel : Nat
  inputNotes : Nat → Nat
  noteMap : Nat → Nat

/-- `MidiLooperAlgorithm`: the engine state reachable from the embedded
operations.  `v` is the host parameter array (`int16_t` entries as `Int`). -/
structure AlgState where
  numTracks : Nat
  v : Nat → Int
  tracks : Nat → TrackState
  heldNotes : Nat → HeldNote
  delayedNotes : Nat → DelayedNote
  dtc : DTC

-- ============================================================================
-- params : parameter indices and TrackParams accessors (types.h)
-- ============================================================================

/-- `kParamRecord` from the global parameter enum in `types.h`. -/
def kParamRecord : Nat := 2
/-- `kParamRecTrack` from `types.h`. -/
def kParamRecTrack : Nat := 3
/-- `kParamRecDivision` from `types.h`. -/
def kParamRecDivision : Nat := 4
/-- `kParamRecMode` from `types.h`. -/
def kParamRecMode : Nat := 5
/-- `kParamRecSnap` from `types.h`. -/
def kParamRecSnap : Nat := 6
/-- `kParamMidiInCh` from `types.h`. -/
def kParamMidiInCh : Nat := 7
/-- `kParamScaleRoot` from `types.h`. -/
def kParamScaleRoot : Nat := 9
/-- `kParamScaleType` from `types.h`. -/
def kParamScaleType : Nat := 10
/-- `kParamGenMode` from `types.h`. -/
def kParamGenMode : Nat := 14
/-- `kParamGenDensity` from `types.h`. -/
def kParamGenDensity : Nat := 15
/-- `kParamGenBias` from `types.h`. -/
def kParamGenBias : Nat := 16
/-- `kParamGenRange` from `types.h`. -/
def kParamGenRange : Nat := 17
/-- `kParamGenNoteRand` from `types.h`. -/
def kParamGenNoteRand : Nat := 18
/-- `kParamGenVelVar` from `types.h`. -/
def kParamGenVelVar : Nat := 19
/-- `kParamGenTies` from `types.h`. -/
def kParamGenTies : Nat := 20
/-- `kParamGenGateRand` from `types.h`. -/
def kParamGenGateRand : Nat := 21
/-- `kGlobalParamCount` from `types.h`. -/
def kGlobalParamCount : Nat := 23
/-- `kTrackParamCount` (`PARAMS_PER_TRACK`) from `types.h`. -/
def kTrackParamCount : Nat := 26

/-- `trackParam` from `types.h`: index of a per-track parameter. -/
def trackParamIdx (track param : Nat) : Nat :=
  kGlobalParamCount + track * kTrackParamCount + param

/-- `TrackParams::raw` from `types.h`. -/
def tpRaw (v : Nat → Int) (track param : Nat) : Int :=
  v (trackParamIdx track param)

/-- `TrackParams::enabled` (`kTrackEnabled = 0`). -/
def tpEnabled (v : Nat → Int) (track : Nat) : Bool :=
  tpRaw v track 0 = 1

/-- `TrackParams::length` (`kTrackLength = 1`, clamped to `1..MAX_STEPS`). -/
def tpLength (v : Nat → Int) (track : Nat) : Nat :=
  (clampParam (tpRaw v track 1) 1 (MAX_STEPS : Int)).toNat

/-- `TrackParams::velocity` (`kTrackVelocity = 4`, a signed offset). -/
def tpVelocity (v : Nat → Int) (track : Nat) : Int :=
  tpRaw v track 4

/-- `TrackParams::humanize` (`kTrackHumanize = 5`). -/
def tpHumanize (v : Nat → Int) (track : Nat) : Int :=
  tpRaw v track 5

/-- `TrackParams::channel` (`kTrackChannel = 6`, clamped to `1..16`). -/
def tpChannel (v : Nat → Int) (track : Nat) : Int :=
  clampParam (tpRaw v track 6) 1 16

/-- `TrackParams::destination` (`kTrackDestination = 7`). -/
def tpDestination (v : Nat → Int) (track : Nat) : Int :=
  tpRaw v track 7

/-- Modelled from the spec: the division index feeding
`QUANTIZE_VALUES[tp.division()]` in `quantize.cpp`.  The accessor body is
not in the sources; per §6 the `RecDivision` parameter selects the
division from the five-entry lookup, so its value is read globally and
kept inside the table's index range. -/
def tpDivisionIdx (v : Nat → Int) : Nat :=
  (clampParam (v kParamRecDivision) 0 4).toNat

/-- `getCachedQuantize` from `quantize.cpp`: returns
`(quantize, loopLen, cache)` with the cache refreshed when dirty. -/
def getCachedQuantize (v : Nat → Int) (track : Nat) (cache : TrackCache) :
    Nat × Nat × TrackCache :=
  if cache.dirty then
    let L := tpLength v track
    let q := getEffectiveQuantize L (tpDivisionIdx v)
    (q, L, ⟨q, L, false⟩)
  else
    (cache.effectiveQuantize, cache.loopLen, cache)

-- ============================================================================
-- midi_utils.h
-- ============================================================================

/-- Modelled from the spec: the four `kNT_destination*` mask bits of the
host API (the header is not part of this repository); §6 specifies a
four-bit destination bitfield, so the cases of `destToWhere` from
`midi_utils.h` map to distinct single bits and the default to their union. -/
def destToWhere (dest : Int) : Nat :=
  if dest = 0 then 1
  else if dest = 1 then 2
  else if dest = 2 then 4
  else if dest = 3 then 8
  else 15

/-- `withChannel` from `midi_utils.h`. -/
def withChannel (status : Nat) (ch : Int) : Nat :=
  (status &&& 0xF0) ||| (clamp ch 1 16 - 1).toNat

/-- `kMidiNoteOff` from `types.h`. -/
def kMidiNoteOff : Nat := 0x80
/-- `kMidiNoteOn` from `types.h`. -/
def kMidiNoteOn : Nat := 0x90
/-- `kMidiCC` from `types.h`. -/
def kMidiCC : Nat := 0xB0

-- ============================================================================
-- midi.cpp : output helpers and step-event helpers
-- ============================================================================

/-- `hasNoteEvent` from `midi.cpp`. -/
def hasNoteEvent (evs : StepEvents) (noteNum : Nat) : Bool :=
  evs.events.any fun e => e.note = noteNum

/-- `addEvent` from `midi.cpp`: append unless the step is full or the note
is already present. -/
def addEvent (evs : StepEvents) (note velocity duration : Nat) : StepEvents :=
  if evs.events.length < MAX_EVENTS_PER_STEP ∧ ¬hasNoteEvent evs note then
    ⟨evs.events ++ [⟨note, velocity, duration⟩]⟩
  else
    evs

/-- `clearTrackEvents` from `midi.cpp`: zero the count of every step. -/
def clearTrackEvents (ts : TrackState) : TrackState :=
  { ts with steps := fun _ => ⟨[]⟩ }

/-- Replace one track inside the engine state. -/
def setTrack (s : AlgState) (t : Nat) (ts : TrackState) : AlgState :=
  { s with tracks := Function.update s.tracks t ts }

/-- `isNoteSharedByOtherTrack` from `midi.cpp`. -/
def isNoteSharedByOtherTrack (s : AlgState) (track note : Nat) (outCh : Int)
    (whereMask : Nat) : Bool :=
  (List.range s.numTracks).any fun t =>
    t ≠ track ∧
      ((s.tracks t).playing note).active ∧
      ((s.tracks t).playing note).outCh = outCh ∧
      ((s.tracks t).playing note).whereMask = whereMask

/-- One iteration (`for n`) of the note loop in `sendTrackNotesOff`:
conditionally emit the note-off, then deactivate the slot. -/
def sendTrackNotesOffStep (track : Nat) (acc : AlgState × List MidiMsg) (n : Nat) :
    AlgState × List MidiMsg :=
  let (s, msgs) := acc
  let ts := s.tracks track
  let pn := ts.playing n
  let msgs' :=
    if pn.active ∧ ¬ isNoteSharedByOtherTrack s track n pn.outCh pn.whereMask then
      msgs ++ [⟨pn.whereMask, withChannel kMidiNoteOff pn.outCh, n, 0⟩]
    else msgs
  let ts' := { ts with
    activeNotes := Function.update ts.activeNotes n 0
    playing := Function.update ts.playing n { pn with active := false } }
  (setTrack s track ts', msgs')

/-- `sendTrackNotesOff` from `midi.cpp`: emit note-offs for the track's
active notes (unless shared), deactivate every slot, zero the UI
velocity, and cancel the track's pending delayed notes. -/
def sendTrackNotesOff (s : AlgState) (track : Nat) : AlgState × List MidiMsg :=
  let (s1, msgs) := (List.range 128).foldl (sendTrackNotesOffStep track) (s, [])
  let ts := s1.tracks track
  let s2 := setTrack s1 track { ts with activeVel := 0 }
  let s3 := { s2 with
    delayedNotes := (fun i =>
      if i < MAX_DELAYED_NOTES ∧ (s2.delayedNotes i).active ∧
          (s2.delayedNotes i).track = track then
        { s2.delayedNotes i with active := false }
      else s2.delayedNotes i) }
  (s3, msgs)

/-- `sendAllNotesOff` from `midi.cpp`: one CC 123 message per track, on
that track's channel and destination. -/
def sendAllNotesOff (s : AlgState) : List MidiMsg :=
  (List.range s.numTracks).map fun t =>
    ⟨destToWhere (tpDestination s.v t), withChannel kMidiCC (tpChannel s.v t), 123, 0⟩

-- ============================================================================
-- recording.h / recording.cpp
-- ============================================================================

/-- `RecordingContext` from `recording.h`. -/
structure RecordingContext where
  track : Nat
  loopLen : Nat
  quantize : Nat
  snapThreshold : ℚ
  rawStep : Nat
  stepFraction : ℚ
deriving DecidableEq, Repr

/-- `createRecordingContext` from `recording.h`; also returns the possibly
refreshed cache (the C function refreshes it through the pointer). -/
def createRecordingContext (v : Nat → Int) (track currentStep : Nat)
    (stepTime stepDuration : ℚ) (cache : TrackCache) :
    RecordingContext × TrackCache :=
  let (quantize, loopLen, cache') := getCachedQuantize v track cache
  let rawStep := (clamp (currentStep : Int) 1 (loopLen : Int)).toNat
  let stepFraction := if stepDuration > 0 then clampf (stepTime / stepDuration) 0 1 else 0
  let snapThreshold := (v kParamRecSnap : ℚ) / 100
  (⟨track, loopLen, quantize, snapThreshold, rawStep, stepFraction⟩, cache')

/-- `recordNoteOn` from `recording.cpp` (the `uint8_t` stores reduce
modulo 256). -/
def recordNoteOn (s : AlgState) (ctx : RecordingContext) (note velocity : Nat) :
    AlgState :=
  let held : HeldNote :=
    { note := note
      velocity := velocity
      track := ctx.track % 256
      quantizedStep :=
        snapToDivisionSubclock ctx.rawStep ctx.stepFraction ctx.quantize
          ctx.snapThreshold ctx.loopLen % 256
      effectiveStep :=
        snapStepSubclock ctx.rawStep ctx.stepFraction ctx.snapThreshold ctx.loopLen % 256
      quantize := ctx.quantize % 256
      loopLen := ctx.loopLen % 256
      rawStep := ctx.rawStep % 256
      active := true }
  { s with heldNotes := Function.update s.heldNotes note held }

/-- `recordNoteOff` from `recording.cpp`: wrap the start-to-end step
distance into the loop, floor it at 1, round it with
`calcQuantizedDuration`, clamp it to the remaining loop, then store the
event unless the step already has this note. -/
def recordNoteOff (s : AlgState) (ctx : RecordingContext) (note : Nat) : AlgState :=
  let held := s.heldNotes note
  if ¬held.active then s
  else
    let effectiveEndStep :=
      snapStepSubclock ctx.rawStep ctx.stepFraction ctx.snapThreshold held.loopLen
    let duration : Int := (effectiveEndStep : Int) - (held.effectiveStep : Int)
    let duration := if duration < 0 then duration + (held.loopLen : Int) else duration
    let duration := if duration < 1 then 1 else duration
    let duration : Int := (calcQuantizedDuration duration.toNat held.quantize : Int)
    let maxDuration : Int := (held.loopLen : Int) - (held.quantizedStep : Int) + 1
    let duration := if duration > maxDuration then maxDuration else duration
    let heldTrack := safeTrackIndex (held.track : Int)
    let heldStepIdx := safeStepIndex ((held.quantizedStep : Int) - 1)
    let ts := s.tracks heldTrack
    let evs := ts.steps heldStepIdx
    let ts' :=
      if ¬hasNoteEvent evs note then
        { ts with steps := (Function.update ts.steps heldStepIdx
            (addEvent evs note held.velocity (duration.emod 65536).toNat)) }
      else ts
    let s' := setTrack s heldTrack ts'
    { s' with heldNotes := Function.update s'.heldNotes note { held with active := false } }

/-- One iteration (`for noteNum`) of `finalizeHeldNotes` from
`recording.cpp`. -/
def finalizeHeldNotesStep (s : AlgState) (noteNum : Nat) : AlgState :=
  let held := s.heldNotes noteNum
  if ¬held.active then s
  else
    let track := safeTrackIndex (held.track : Int)
    let currentStep : Int := clamp ((s.tracks track).step : Int) 1 (held.loopLen : Int)
    let duration : Int := currentStep - (held.effectiveStep : Int)
    let duration := if duration < 0 then duration + (held.loopLen : Int) else duration
    let duration := if duration < 1 then 1 else duration
    let duration : Int := (calcQuantizedDuration duration.toNat held.quantize : Int)
    let maxDuration : Int := (held.loopLen : Int) - (held.quantizedStep : Int) + 1
    let duration := if duration > maxDuration then maxDuration else duration
    let stepIdx := safeStepIndex ((held.quantizedStep : Int) - 1)
    let ts := s.tracks track
    let evs := ts.steps stepIdx
    let ts' :=
      if ¬hasNoteEvent evs noteNum then
        { ts with steps := (Function.update ts.steps stepIdx
            (addEvent evs noteNum held.velocity (duration.emod 65536).toNat)) }
      else ts
    let s' := setTrack s track ts'
    { s' with heldNotes := Function.update s'.heldNotes noteNum { held with active := false } }

/-- `finalizeHeldNotes` from `recording.cpp`. -/
def finalizeHeldNotes (s : AlgState) : AlgState :=
  (List.range 128).foldl finalizeHeldNotesStep s

/-- `clearHeldNotes` from `recording.cpp`. -/
def clearHeldNotes (s : AlgState) : AlgState :=
  { s with heldNotes := fun i =>
      if i < 128 then { s.heldNotes i with active := false } else s.heldNotes i }

/-- `stepRecordNoteOn` from `recording.cpp`. -/
def stepRecordNoteOn (s : AlgState) (track note velocity : Nat) : AlgState :=
  if s.dtc.stepRecPos = 0 then s
  else
    let (quantize, loopLen, cache') := getCachedQuantize s.v track (s.tracks track).cache
    let s := setTrack s track { s.tracks track with cache := cache' }
    let rawStep := (s.dtc.stepRecPos - 1) * quantize + 1
    let duration : Int := (quantize : Int)
    let maxDuration : Int := (loopLen : Int) - (rawStep : Int) + 1
    let duration := if duration > maxDuration then maxDuration else duration
    let stepIdx := safeStepIndex ((rawStep : Int) - 1)
    let wtrack := safeTrackIndex (track : Int)
    let ts := s.tracks wtrack
    let evs := ts.steps stepIdx
    if ¬hasNoteEvent evs note then
      setTrack s wtrack { ts with steps := (Function.update ts.steps stepIdx
        (addEvent evs note velocity (duration.emod 65536).toNat)) }
    else s

/-- `stepRecordNoteOff` from `recording.cpp`: advance the cursor once all
held input notes are released. -/
def stepRecordNoteOff (s : AlgState) (track : Nat) : AlgState :=
  if s.dtc.stepRecPos = 0 then s
  else if (List.range 128).any (fun n => s.dtc.inputNotes n ≠ 0) then s
  else
    let (quantize, loopLen, cache') := getCachedQuantize s.v track (s.tracks track).cache
    let s := setTrack s track { s.tracks track with cache := cache' }
    let numDivSteps := loopLen / quantize
    let pos := s.dtc.stepRecPos + 1
    let pos := if pos > numDivSteps then 1 else pos
    { s with dtc := { s.dtc with stepRecPos := pos } }

-- ============================================================================
-- playback.cpp : note durations, delayed notes, emission, transport stop
-- ============================================================================

/-- One iteration (`for n`) of `processNoteDurations` from
`playback.cpp`: expire or count down one playing note. -/
def processNoteDurationsStep (track : Nat) (whereMask : Nat) (outCh : Int)
    (acc : AlgState × List MidiMsg) (n : Nat) : AlgState × List MidiMsg :=
  let (s, msgs) := acc
  let ts := s.tracks track
  let pn := ts.playing n
  if ¬pn.active then acc
  else if pn.remaining ≤ 1 then
    let msgs' := msgs ++ [⟨whereMask, withChannel kMidiNoteOff outCh, n, 0⟩]
    let ts1 := { ts with
      playing := (Function.update ts.playing n { pn with active := false }),
      activeNotes := (Function.update ts.activeNotes n 0) }
    let hasActive := (List.range 128).any fun m => ts1.activeNotes m > 0
    let ts2 := if ¬hasActive then { ts1 with activeVel := 0 } else ts1
    (setTrack s track ts2, msgs')
  else
    (setTrack s track
      { ts with playing := (Function.update ts.playing n { pn with remaining := pn.remaining - 1 }) },
      msgs)

/-- `processNoteDurations` from `playback.cpp`. -/
def processNoteDurations (s : AlgState) (track : Nat) (whereMask : Nat) (outCh : Int) :
    AlgState × List MidiMsg :=
  (List.range 128).foldl (processNoteDurationsStep track whereMask outCh) (s, [])

/-- `scheduleDelayedNote` from `playback.cpp`: linear search for the first
inactive pool slot; a full pool drops the note. -/
def scheduleDelayedNote (s : AlgState) (note velocity track : Nat) (outCh : Int)
    (duration delay : Nat) (whereMask : Nat) : AlgState × Bool :=
  match (List.range MAX_DELAYED_NOTES).find? (fun i => !(s.delayedNotes i).active) with
  | some i =>
    ({ s with delayedNotes := (Function.update s.delayedNotes i
        ⟨note, velocity, track, outCh, duration, delay, whereMask, true⟩) }, true)
  | none => (s, false)

/-- One iteration (`for i`) of `processDelayedNotes` from `playback.cpp`. -/
def processDelayedNotesStep (dd16 : Nat) (acc : AlgState × List MidiMsg) (i : Nat) :
    AlgState × List MidiMsg :=
  let (s, msgs) := acc
  let dn := s.delayedNotes i
  if ¬dn.active then acc
  else if dn.delay ≤ dd16 then
    let msgs' := msgs ++ [⟨dn.whereMask, withChannel kMidiNoteOn dn.outCh, dn.note, dn.velocity⟩]
    let track := safeTrackIndex (dn.track : Int)
    let note := safeNoteIndex (dn.note : Int)
    let ts := s.tracks track
    let ts' := { ts with
      playing := (Function.update ts.playing note
        { ts.playing note with active := true, remaining := dn.duration }),
      activeNotes := (Function.update ts.activeNotes note dn.velocity),
      activeVel := dn.velocity }
    let s' := setTrack s track ts'
    ({ s' with delayedNotes := (Function.update s'.delayedNotes i { dn with active := false }) },
      msgs')
  else
    ({ s with delayedNotes := (Function.update s.delayedNotes i
        { dn with delay := dn.delay - dd16 }) }, msgs)

/-- `processDelayedNotes` from `playback.cpp`.  The `(int)(dt * 1000.0f)`
cast truncates toward zero; the decrement is floored at 1 and reduced to
`uint16_t` where the C code casts. -/
def processDelayedNotes (s : AlgState) (dt : ℚ) : AlgState × List MidiMsg :=
  let dd : Int := if (0 : ℚ) ≤ dt * 1000 then ⌊dt * 1000⌋ else ⌈dt * 1000⌉
  let dd := if dd < 1 then 1 else dd
  let dd16 := (dd.emod 65536).toNat
  (List.range MAX_DELAYED_NOTES).foldl (processDelayedNotesStep dd16) (s, [])

/-- `emitNote` from `playback.cpp`: shift and scale-quantize the note,
offset the velocity, then either emit immediately (priming the playing
slot) or schedule through the delayed pool. -/
def emitNote (s : AlgState) (track : Nat) (ev : NoteEvent) (velOffset humanize outCh : Int)
    (whereMask : Nat) (noteShift : Int) : AlgState × List MidiMsg :=
  let ts := s.tracks track
  let actualNote0 := clamp ((ev.note : Int) + noteShift) 0 127
  let scaleRoot := s.v kParamScaleRoot
  let scaleType := s.v kParamScaleType
  let actualNote := quantizeToScale actualNote0.toNat scaleRoot scaleType
  let velocity := (clamp ((ev.velocity : Int) + velOffset) 0 127).toNat
  let (delay, rs) :=
    if humanize > 0 then randRange ts.randState 0 humanize else ((0 : Int), ts.randState)
  if delay = 0 then
    let ts' := { ts with
      randState := rs,
      playing := (Function.update ts.playing actualNote
        { ts.playing actualNote with active := true, remaining := ev.duration }),
      activeNotes := (Function.update ts.activeNotes actualNote velocity),
      activeVel := velocity }
    (setTrack s track ts',
      [⟨whereMask, withChannel kMidiNoteOn outCh, actualNote, velocity⟩])
  else
    let s1 := setTrack s track { ts with randState := rs }
    ((scheduleDelayedNote s1 actualNote velocity track outCh ev.duration
        (delay.emod 65536).toNat whereMask).1, [])

/-- `handlePanicOnWrap` from `playback.cpp`: broadcast all-notes-off and
clear every track's note state and the delayed pool. -/
def handlePanicOnWrap (s : AlgState) : AlgState × List MidiMsg :=
  let msgs := sendAllNotesOff s
  let s1 := { s with tracks := (fun t =>
    if t < s.numTracks then
      let ts := s.tracks t
      { ts with
        playing := (fun n => if n < 128 then { ts.playing n with active := false } else ts.playing n),
        activeNotes := (fun n => if n < 128 then 0 else ts.activeNotes n),
        activeVel := 0 }
    else s.tracks t) }
  let s2 := { s1 with delayedNotes := (fun i =>
    if i < MAX_DELAYED_NOTES then { s1.delayedNotes i with active := false }
    else s1.delayedNotes i) }
  (s2, msgs)

/-- `handleTransportStop` from `playback.cpp`. -/
def handleTransportStop (s : AlgState) : AlgState × List MidiMsg :=
  let s1 :=
    if s.dtc.recordState = RecordState.LIVE then
      let s0 := finalizeHeldNotes s
      { s0 with dtc := { s0.dtc with recordState := RecordState.IDLE } }
    else s
  let s2 := { s1 with dtc := { s1.dtc with transportState := TransportState.STOPPED } }
  let msgs := sendAllNotesOff s2
  let s3 := { s2 with tracks := (fun t =>
    if t < s2.numTracks then
      let ts := s2.tracks t
      { ts with
        step := 0, clockCount := 0, divCounter := 0, loopCount := 0,
        activeNotes := (fun n => if n < 128 then 0 else ts.activeNotes n),
        playing := (fun n => if n < 128 then { ts.playing n with active := false } else ts.playing n),
        activeVel := 0, brownianPos := 1, shufflePos := 1 }
    else s2.tracks t) }
  let s4 := { s3 with delayedNotes := (fun i =>
    if i < MAX_DELAYED_NOTES then { s3.delayedNotes i with active := false }
    else s3.delayedNotes i) }
  let s5 := { s4 with dtc := { s4.dtc with stepTime := 0 } }
  (s5, msgs)

-- ============================================================================
-- generate.cpp : pattern generator
-- ============================================================================

/-- One iteration (`for s`, 1-based) of the first pass of `generateNew`
from `generate.cpp`. -/
def generateNewStep (bias range noteRand velVar gateRand density : Int)
    (quantize : Nat) (scaleRoot scaleType : Int) (ts : TrackState) (sPos : Nat) :
    TrackState :=
  if quantize > 1 ∧ (sPos - 1) % quantize ≠ 0 then ts
  else
    let (roll, rs1) := randRange ts.randState 1 100
    if roll > density then { ts with randState := rs1 }
    else
      let spread := (range * noteRand).tdiv 100
      let (note, rs2) :=
        if spread > 0 then
          let (r, st) := randRange rs1 (-spread) spread
          (bias + r, st)
        else (bias, rs1)
      let note := quantizeToScale (clamp note 0 127).toNat scaleRoot scaleType
      let velSpread := (100 * velVar).tdiv 200
      let (vel, rs3) :=
        if velSpread > 0 then
          let (r, st) := randRange rs2 (-velSpread) velSpread
          (100 + r, st)
        else ((100 : Int), rs2)
      let vel := clamp vel 1 127
      let maxDur : Int := if (quantize : Int) > 1 then (quantize : Int) else 1
      let minDur := maxDur - (maxDur * gateRand).tdiv 100
      let minDur := if minDur < 1 then 1 else minDur
      let (durVal, rs4) :=
        if minDur < maxDur then randRange rs3 minDur maxDur else (maxDur, rs3)
      let idx := safeStepIndex ((sPos : Int) - 1)
      { ts with
        randState := rs4,
        steps := (Function.update ts.steps idx
          (addEvent (ts.steps idx) note vel.toNat (durVal.emod 65536).toNat)) }

/-- One iteration (`for s`, 0-based) of the ties pass of `generateNew`. -/
def generateNewTiesStep (ties : Int) (loopLen : Nat) (ts : TrackState) (sIdx : Nat) :
    TrackState :=
  if (ts.steps sIdx).events.length = 0 then ts
  else
    let (roll, rs1) := randRange ts.randState 1 100
    if roll > ties then { ts with randState := rs1 }
    else
      let dist :=
        match (List.range' 1 (loopLen - 1)).find?
            (fun d => (ts.steps ((sIdx + d) % loopLen)).events.length > 0) with
        | some d => d
        | none => 0
      if dist = 0 then { ts with randState := rs1 }
      else
        { ts with
          randState := rs1,
          steps := (Function.update ts.steps sIdx
            ⟨(ts.steps sIdx).events.map fun e => { e with duration := dist % 65536 }⟩) }

/-- `generateNew` from `generate.cpp`. -/
def generateNew (s : AlgState) (track : Nat) : AlgState :=
  let v := s.v
  let (quantize, loopLen, cache') := getCachedQuantize v track (s.tracks track).cache
  let ts := clearTrackEvents { s.tracks track with cache := cache' }
  let ts := (List.range' 1 loopLen).foldl
    (generateNewStep (v kParamGenBias) (v kParamGenRange) (v kParamGenNoteRand)
      (v kParamGenVelVar) (v kParamGenGateRand) (v kParamGenDensity)
      quantize (v kParamScaleRoot) (v kParamScaleType)) ts
  let ts :=
    if v kParamGenTies > 0 then
      (List.range loopLen).foldl (generateNewTiesStep (v kParamGenTies) loopLen) ts
    else ts
  setTrack s track ts

/-- One Fisher-Yates iteration of `generateReorder`: draw `j ∈ [0, i]` and
swap the collected notes at `i` and `j`. -/
def reorderSwap (acc : (Nat → NoteEvent) × Nat) (i : Nat) : (Nat → NoteEvent) × Nat :=
  let (col, st) := acc
  let (j, st') := randRange st 0 (i : Int)
  let jn := j.toNat
  (fun k => if k = i then col jn else if k = jn then col i else col k, st')

/-- `generateReorder` from `generate.cpp`: collect up to 128 events,
shuffle them, and redistribute them over the originally occupied steps. -/
def generateReorder (s : AlgState) (track : Nat) : AlgState :=
  let (_, loopLen, cache') := getCachedQuantize s.v track (s.tracks track).cache
  let ts := { s.tracks track with cache := cache' }
  let collected :=
    ((List.range loopLen).foldl (fun acc st => acc ++ (ts.steps st).events) []).take 128
  let count := collected.length
  if count = 0 then setTrack s track ts
  else
    let positions :=
      ((List.range loopLen).filter fun st => (ts.steps st).events.length > 0).take 128
    let colF : Nat → NoteEvent := fun k => collected.getD k ⟨0, 0, 0⟩
    let (colF', rs') :=
      (List.range' 1 (count - 1)).reverse.foldl reorderSwap (colF, ts.randState)
    let ts := clearTrackEvents { ts with randState := rs' }
    let ts := positions.enum.foldl
      (fun acc pe =>
        if pe.1 < count then
          { acc with steps := (Function.update acc.steps pe.2
              (addEvent (acc.steps pe.2) (colF' pe.1).note (colF' pe.1).velocity
                (colF' pe.1).duration)) }
        else acc) ts
    setTrack s track ts

/-- The inner per-event loop of `generateRepitch`: replace the note with a
fresh bias-plus-spread pick (threading the PRNG state). -/
def repitchEventStep (bias spread scaleRoot scaleType : Int)
    (acc : List NoteEvent × Nat) (e : NoteEvent) : List NoteEvent × Nat :=
  let (done, st) := acc
  let (note, st') :=
    if spread > 0 then
      let (r, st') := randRange st (-spread) spread
      (bias + r, st')
    else (bias, st)
  let note := quantizeToScale (clamp note 0 127).toNat scaleRoot scaleType
  (done ++ [{ e with note := note }], st')

/-- `generateRepitch` from `generate.cpp`: overwrite every event's note in
place, keeping velocity, duration, and rhythm. -/
def generateRepitch (s : AlgState) (track : Nat) : AlgState :=
  let v := s.v
  let (_, loopLen, cache') := getCachedQuantize v track (s.tracks track).cache
  let ts := { s.tracks track with cache := cache' }
  let spread := (v kParamGenRange * v kParamGenNoteRand).tdiv 100
  let ts := (List.range loopLen).foldl
    (fun ts sIdx =>
      let (events', rs') := (ts.steps sIdx).events.foldl
        (repitchEventStep (v kParamGenBias) spread (v kParamScaleRoot) (v kParamScaleType))
        ([], ts.randState)
      { ts with steps := (Function.update ts.steps sIdx ⟨events'⟩), randState := rs' })
    ts
  setTrack s track ts

/-- Clamp every duration on a step to `maxDur` (the duration re-clamp
inside `generateInvert`). -/
def clampStepDurations (evs : StepEvents) (maxDur : Nat) : StepEvents :=
  ⟨evs.events.map fun e => if e.duration > maxDur then { e with duration := maxDur } else e⟩

/-- `generateInvert` from `generate.cpp`: the `while (left < right)` swap
loop runs for `k = 0 .. loopLen/2 - 1` with `left = k`,
`right = loopLen - 1 - k`. -/
def generateInvert (s : AlgState) (track : Nat) : AlgState :=
  let (_, loopLen, cache') := getCachedQuantize s.v track (s.tracks track).cache
  let ts := { s.tracks track with cache := cache' }
  let ts := (List.range (loopLen / 2)).foldl
    (fun ts k =>
      let left := k
      let right := loopLen - 1 - k
      let tmp := ts.steps left
      let steps1 := Function.update (Function.update ts.steps left (ts.steps right)) right tmp
      let steps2 := Function.update steps1 left
        (clampStepDurations (steps1 left) (loopLen - left))
      let steps3 := Function.update steps2 right
        (clampStepDurations (steps2 right) (loopLen - right))
      { ts with steps := steps3 })
    ts
  setTrack s track ts

/-- `GEN_MODE_NEW` through `GEN_MODE_INVERT` from `types.h` and
`executeGenerate` from `generate.cpp`. -/
def executeGenerate (s : AlgState) (track : Nat) : AlgState × List MidiMsg :=
  if track ≥ s.numTracks then (s, [])
  else
    let (s1, msgs) := sendTrackNotesOff s track
    let mode := s1.v kParamGenMode
    if mode = 0 then (generateNew s1 track, msgs)
    else if mode = 1 then (generateReorder s1 track, msgs)
    else if mode = 2 then (generateRepitch s1 track, msgs)
    else if mode = 3 then (generateInvert s1 track, msgs)
    else (s1, msgs)

-- ============================================================================
-- serial.cpp : the step-event loading loop of deserialiseData
-- ============================================================================

/-- The per-step event-loading loop of `deserialiseData` in `serial.cpp`:
the step count is reset to 0, then at most `MAX_EVENTS_PER_STEP` parsed
`(note, velocity, duration)` triples are range-checked and inserted with
`addEvent`. -/
def deserialiseStepEvents (entries : List (Int × Int × Int)) : StepEvents :=
  (entries.take MAX_EVENTS_PER_STEP).foldl
    (fun evs ent =>
      if 0 ≤ ent.1 ∧ ent.1 ≤ 127 ∧ 0 ≤ ent.2.1 ∧ ent.2.1 ≤ 127 ∧ 1 ≤ ent.2.2 then
        addEvent evs ent.1.toNat ent.2.1.toNat (ent.2.2.emod 65536).toNat
      else evs)
    ⟨[]⟩

-- ============================================================================
-- midilooper.cpp : MIDI-in handler
-- ============================================================================

/-- `midiMessage` from `midilooper.cpp`: channel filter, input scale
quantization through `noteMap`, pass-through, input display update, and
routing into the step-record or live-record paths. -/
def midiMessage (s : AlgState) (byte0 byte1 byte2 : Nat) : AlgState × List MidiMsg :=
  let status := byte0 &&& 0xF0
  let channel := byte0 &&& 0x0F
  let channelFilter := s.v kParamMidiInCh
  if channelFilter > 0 ∧ (channel : Int) ≠ channelFilter - 1 then (s, [])
  else
    let track := (clampParam (s.v kParamRecTrack) 0 ((s.numTracks : Int) - 1)).toNat
    let outCh := tpChannel s.v track
    let whereMask := destToWhere (tpDestination s.v track)
    let isNoteOn := status = kMidiNoteOn ∧ byte2 > 0
    let isNoteOff := status = kMidiNoteOff ∨ (status = kMidiNoteOn ∧ byte2 = 0)
    let (s, byte1) :=
      if isNoteOn then
        let q := quantizeToScale byte1 (s.v kParamScaleRoot) (s.v kParamScaleType)
        ({ s with dtc := { s.dtc with noteMap := (Function.update s.dtc.noteMap byte1 q) } }, q)
      else if isNoteOff then (s, s.dtc.noteMap byte1)
      else (s, byte1)
    let msgs :=
      if isNoteOn ∨ isNoteOff then
        if ((channel : Int) + 1) ≠ outCh then
          [⟨whereMask, withChannel status outCh, byte1, byte2⟩]
        else []
      else []
    let s :=
      if isNoteOn then
        { s with dtc := { s.dtc with
            inputNotes := (Function.update s.dtc.inputNotes byte1 1), inputVel := byte2 } }
      else if isNoteOff then
        let dtc1 := { s.dtc with inputNotes := (Function.update s.dtc.inputNotes byte1 0) }
        let anyHeld := (List.range 128).any fun n => dtc1.inputNotes n != 0
        if ¬anyHeld then { s with dtc := { dtc1 with inputVel := 0 } }
        else { s with dtc := dtc1 }
      else s
    if s.dtc.recordState = RecordState.STEP then
      if isNoteOn then (stepRecordNoteOn s track byte1 byte2, msgs)
      else if isNoteOff then (stepRecordNoteOff s track, msgs)
      else (s, msgs)
    else if s.dtc.recordState ≠ RecordState.LIVE then (s, msgs)
    else
      let ts := s.tracks track
      let (ctx, cache') :=
        createRecordingContext s.v track ts.step s.dtc.stepTime s.dtc.stepDuration ts.cache
      let s := setTrack s track { ts with cache := cache' }
      if isNoteOn then (recordNoteOn s ctx byte1 byte2, msgs)
      else if isNoteOff then (recordNoteOff s ctx byte1, msgs)
      else (s, msgs)

/-- The note-off routing of `midiMessage` (channel already past the filter
check, note translated through the note map): used to relate the `0x90`
velocity-zero path to the `0x80` path. -/
def c10Route (s : AlgState) (ch n status : Nat) : AlgState × List MidiMsg :=
  if s.v kParamMidiInCh > 0 ∧ (ch : Int) ≠ s.v kParamMidiInCh - 1 then (s, [])
  else
    let track := (clampParam (s.v kParamRecTrack) 0 ((s.numTracks : Int) - 1)).toNat
    let outCh := tpChannel s.v track
    let whereMask := destToWhere (tpDestination s.v track)
    let b1 := s.dtc.noteMap n
    let msgs :=
      if ((ch : Int) + 1) ≠ outCh then [⟨whereMask, withChannel status outCh, b1, 0⟩] else []
    let dtc1 := { s.dtc with inputNotes := (Function.update s.dtc.inputNotes b1 0) }
    let anyHeld := (List.range 128).any fun m => dtc1.inputNotes m != 0
    let s1 :=
      if ¬anyHeld then { s with dtc := { dtc1 with inputVel := 0 } }
      else { s with dtc := dtc1 }
    if s1.dtc.recordState = RecordState.STEP then (stepRecordNoteOff s1 track, msgs)
    else if s1.dtc.recordState ≠ RecordState.LIVE then (s1, msgs)
    else
      let ts := s1.tracks track
      let (ctx, cache') :=
        createRecordingContext s1.v track ts.step s1.dtc.stepTime s1.dtc.stepDuration ts.cache
      let s2 := setTrack s1 track { ts with cache := cache' }
      (recordNoteOff s2 ctx b1, msgs)

-- ============================================================================
-- Concrete engine states (mirroring the initialisation in construct)
-- ============================================================================

/-- A freshly constructed track state, as initialised by `construct` in
`midilooper.cpp`. -/
def initTrack : TrackState :=
  { steps := fun _ => ⟨[]⟩
    playing := fun _ => ⟨0, 0, 0, false⟩
    activeNotes := fun _ => 0
    shuffleOrder := fun i => i + 1
    clockCount := 0, divCounter := 0, loopCount := 0, step := 0, lastStep := 1
    brownianPos := 1, shufflePos := 1, activeVel := 0, octavePlayCount := 0
    lastEnabled := 1
    cache := ⟨1, 1, true⟩
    randState := 0 }

/-- A freshly constructed DTC block, as initialised by `construct`. -/
def initDTC : DTC :=
  { transportState := TransportState.STOPPED
    recordState := RecordState.IDLE
    stepTime := 0, stepDuration := 1 / 10
    stepRecPos := 0, inputVel := 0
    inputNotes := fun _ => 0
    noteMap := fun i => i }

/-- A freshly constructed engine state over a given parameter array. -/
def initState (numTracks : Nat) (v : Nat → Int) : AlgState :=
  { numTracks := numTracks
    v := v
    tracks := fun _ => initTrack
    heldNotes := fun _ => ⟨0, 0, 0, 0, 0, 0, 0, 0, false⟩
    delayedNotes := fun _ => ⟨0, 0, 0, 0, 0, 0, 0, false⟩
    dtc := initDTC }

/-- `initState` with a live recording in progress. -/
def liveInitState (numTracks : Nat) (v : Nat → Int) : AlgState :=
  { initState numTracks v with dtc := { initDTC with recordState := RecordState.LIVE } }

/-- A two-track state in which both tracks hold the same active note 60 on
channel 5, destination mask 4 (a shared note). -/
def sharedNoteState : AlgState :=
  { initState 2 (fun _ => 0) with
    tracks := fun _ =>
      { initTrack with
        playing := fun m => if m = 60 then ⟨5, 5, 4, true⟩ else ⟨0, 0, 0, false⟩ } }

/-- A one-track state whose track 0 plays note 60 with one tick remaining
(`remaining = 1`, `activeNotes = 5`), about to expire. -/
def c1ExpireState : AlgState :=
  { initState 1 (fun _ => 0) with
    tracks := fun _ =>
      { initTrack with
        playing := fun n => if n = 60 then ⟨1, 1, 1, true⟩ else ⟨0, 0, 0, false⟩,
        activeNotes := fun n => if n = 60 then 5 else 0 } }

/-- A one-track state whose track 0 holds two distinct notes (60 and 62) on
step 1, with generator bias 72 and note randomness 0. -/
def c8State : AlgState :=
  { initState 1 (fun i => if i = kParamGenBias then 72 else 0) with
    tracks := fun _ =>
      { initTrack with
        steps := fun i => if i = 0 then ⟨[⟨60, 100, 4⟩, ⟨62, 100, 4⟩]⟩ else ⟨[]⟩,
        cache := ⟨1, 4, false⟩ } }

/-- A one-track live-recording state holding note 60 (velocity 100) on
track 0 since effective step 1, quantize 1, loop length 4. -/
def c5State : AlgState :=
  { liveInitState 1 (fun _ => 0) with
    heldNotes := Function.update (fun _ => ⟨0, 0, 0, 0, 0, 0, 0, 0, false⟩) 60
      ⟨60, 100, 0, 1, 1, 1, 4, 1, true⟩ }

/-- A recording context at raw step 2 of a 4-step loop, fraction 0,
snap threshold 1/2. -/
def c5Ctx : RecordingContext := ⟨0, 4, 1, 1/2, 2, 0⟩

/-- The duration claim C5 ascribes to live recording: effective end step
minus held effective start step, wrapped into the positive range by adding
the loop length and floored at 1, rounded to a quantize multiple with
`calcQuantizedDuration`, then clamped to at most
`loop_length - quantized_start + 1`. -/
def claimedLiveDuration (effEnd effStart loopLen quantize qStart : Nat) : Nat :=
  let d0 : Int := (effEnd : Int) - (effStart : Int)
  let d1 : Int := if d0 < 0 then d0 + (loopLen : Int) else d0
  let d2 : Int := max 1 d1
  let d3 : Nat := calcQuantizedDuration d2.toNat quantize
  min d3 (loopLen + 1 - qStart)

-- ============================================================================
-- Predicates used by the theorems
-- ============================================================================

/-- The scale quantizer is idempotent on the full MIDI range for a given
root and scale selector. -/
def scaleQuantIdempotentOn (root scaleType : Int) : Prop :=
  ∀ n < 128, quantizeToScale (quantizeToScale n root scaleType) root scaleType =
    quantizeToScale n root scaleType

instance (root scaleType : Int) : Decidable (scaleQuantIdempotentOn root scaleType) := by
  unfold scaleQuantIdempotentOn
  infer_instance

/-- The per-note playing-state invariant of claim C1, restricted to what the
code maintains: `activeNotes[n] > 0` is equivalent to `playing[n].active`,
and an active slot has a positive remaining duration (an inactive slot may
keep a stale positive `remaining`). -/
def noteInv (ts : TrackState) : Prop :=
  ∀ n, n < 128 →
    ((0 < ts.activeNotes n ↔ (ts.playing n).active = true) ∧
     ((ts.playing n).active = true → 0 < (ts.playing n).remaining))

instance (ts : TrackState) : Decidable (noteInv ts) := by
  unfold noteInv
  infer_instance

/-- Every active delayed-pool entry carries a positive velocity and a
positive duration. -/
def poolInv (s : AlgState) : Prop :=
  ∀ i, (s.delayedNotes i).active = true →
    1 ≤ (s.delayedNotes i).velocity ∧ 1 ≤ (s.delayedNotes i).duration

/-- The step-event invariant of claim C8: at most `MAX_EVENTS_PER_STEP`
events and pairwise distinct note numbers. -/
def stepOk (evs : StepEvents) : Prop :=
  evs.events.length ≤ MAX_EVENTS_PER_STEP ∧ (evs.events.map fun e => e.note).Nodup

instance (evs : StepEvents) : Decidable (stepOk evs) := by
  unfold stepOk
  infer_instance

/-- `stepOk` on every step of one track. -/
def tsOk (ts : TrackState) : Prop :=
  ∀ i, stepOk (ts.steps i)

/-- `stepOk` on every step of every track. -/
def stepsOk (s : AlgState) : Prop :=
  ∀ t, tsOk (s.tracks t)

-- ============================================================================
-- THEOREMS
-- ============================================================================

lemma findValidQuantizeLoop_spec (L : Nat) (hL : 1 ≤ L) (m : Nat) :
    1 ≤ findValidQuantizeLoop L m ∧ findValidQuantizeLoop L m ∣ L ∧
    findValidQuantizeLoop L m ≤ max m 1 ∧
    ∀ q, q ≤ m → q ∣ L → q ≤ findValidQuantizeLoop L m := by
  induction m with
  | zero =>
    refine ⟨le_refl _, one_dvd _, le_refl _, ?_⟩
    intro q hq _
    omega
  | succ k ih =>
    by_cases h : L % (k + 1) = 0
    · refine ⟨by simp [findValidQuantizeLoop, h], ?_, ?_, ?_⟩
      · simpa [findValidQuantizeLoop, h] using Nat.dvd_of_mod_eq_zero h
      · simp only [findValidQuantizeLoop, h, if_true, if_pos]
        omega
      · intro q hq _
        simp only [findValidQuantizeLoop, h, if_true, if_pos]
        omega
    · obtain ⟨ih1, ih2, ih3, ih4⟩ := ih
      refine ⟨by simpa [findValidQuantizeLoop, h] using ih1,
        by simpa [findValidQuantizeLoop, h] using ih2, ?_, ?_⟩
      · simp only [findValidQuantizeLoop, h, if_false]
        omega
      · intro q hq hdvd
        simp only [findValidQuantizeLoop, h, if_false]
        rcases Nat.lt_or_ge q (k + 1) with hlt | hge
        · exact ih4 q (by omega) hdvd
        · exfalso
          have : q = k + 1 := by omega
          subst this
          exact h (Nat.mod_eq_zero_of_dvd hdvd)

lemma one_le_QUANTIZE_VALUES (i : Nat) : 1 ≤ QUANTIZE_VALUES i := by
  rcases i with _ | _ | _ | _ | _ | j <;> simp [QUANTIZE_VALUES]

/-- Claim C6: for every loop length in `1..=128` and every division index,
the effective quantize value is the largest `q` dividing the length with
`q ≤ min target (length)`, the target coming from the lookup table
`{1, 2, 4, 8, 16}`; such a `q` always exists (it is at least 1). -/
theorem C6_effective_quantize_is_greatest_divisor (L i : Nat)
    (h1 : 1 ≤ L) (h2 : L ≤ 128) :
    1 ≤ getEffectiveQuantize L i ∧
    getEffectiveQuantize L i ∣ L ∧
    getEffectiveQuantize L i ≤ min (QUANTIZE_VALUES i) L ∧
    ∀ q, q ∣ L → q ≤ min (QUANTIZE_VALUES i) L → q ≤ getEffectiveQuantize L i := by
  have ht := one_le_QUANTIZE_VALUES i
  have hm : 1 ≤ min (QUANTIZE_VALUES i) L := le_min ht h1
  obtain ⟨s1, s2, s3, s4⟩ := findValidQuantizeLoop_spec L h1 (min (QUANTIZE_VALUES i) L)
  refine ⟨s1, s2, ?_, fun q hq hle => s4 q hle hq⟩
  have : max (min (QUANTIZE_VALUES i) L) 1 = min (QUANTIZE_VALUES i) L := by omega
  simpa [getEffectiveQuantize, findValidQuantize, this] using s3

/-- Witness for C6 at loop length 12 and division index 3 (target 8):
the effective quantize is 6. -/
theorem C6_witness :
    1 ≤ getEffectiveQuantize 12 3 ∧ getEffectiveQuantize 12 3 ∣ 12 ∧
    getEffectiveQuantize 12 3 ≤ min (QUANTIZE_VALUES 3) 12 ∧
    ∀ q, q ∣ 12 → q ≤ min (QUANTIZE_VALUES 3) 12 → q ≤ getEffectiveQuantize 12 3 :=
  C6_effective_quantize_is_greatest_divisor 12 3 (by decide) (by decide)

/-- Claim C4 fails on the code: with the Dorian scale (`scaleType = 2`) and
root 0, note 4 quantizes to 3 but re-quantizing yields 2. -/
theorem C4_counterexample :
    quantizeToScale (quantizeToScale 4 0 2) 0 2 ≠ quantizeToScale 4 0 2 := by decide

set_option maxRecDepth 10000 in
/-- Claim C4 (amended): the scale quantizer is idempotent exactly when the
scale is OFF or the root/scale pair is one of Ionian root 0, Dorian root 1,
Phrygian root 1, Lydian root 0, Aeolian root 1, Locrian root 1; for every
other root and supported scale (including both pentatonic scales at every
root) some note in `0..=127` is moved again by a second quantization. -/
theorem C4_scale_quantizer_idempotence : ∀ (root scaleType : Fin 12),
    (scaleQuantIdempotentOn ((root : Nat) : Int) ((scaleType : Nat) : Int) ↔
      ((scaleType : Nat) = 0 ∨ ((scaleType : Nat) = 1 ∧ (root : Nat) = 0) ∨
       ((scaleType : Nat) = 2 ∧ (root : Nat) = 1) ∨
       ((scaleType : Nat) = 3 ∧ (root : Nat) = 1) ∨
       ((scaleType : Nat) = 4 ∧ (root : Nat) = 0) ∨
       ((scaleType : Nat) = 6 ∧ (root : Nat) = 1) ∨
       ((scaleType : Nat) = 7 ∧ (root : Nat) = 1))) := by decide

/-- Claim C9 fails on the code: `createRecordingContext` clamps the step
fraction into the closed interval `[0, 1]`, so the recording path supplies
fraction exactly 1 once a full step duration has elapsed
(`stepTime = stepDuration`), and at threshold 1 (`RecSnap = 100`)
`snapStepSubclock` then advances: raw step 2 snaps to 3. -/
theorem C9_counterexample :
    (createRecordingContext
        (fun i => if i = kParamRecSnap then 100 else 0) 0 2 1 1 ⟨4, 4, false⟩).1.stepFraction
      = 1 ∧
    (createRecordingContext
        (fun i => if i = kParamRecSnap then 100 else 0) 0 2 1 1 ⟨4, 4, false⟩).1.snapThreshold
      = 1 ∧
    snapStepSubclock 2 1 1 4 = 3 := by
  refine ⟨?_, ?_, ?_⟩
  · simp [createRecordingContext, getCachedQuantize, clampf, clamp]
  · simp [createRecordingContext, getCachedQuantize, kParamRecSnap]
  · simp [snapStepSubclock]

/-- Claim C9 (amended): at threshold 1.0 (`RecSnap = 100%`),
`snap_step_subclock` returns the raw step unchanged for every step
fraction strictly below 1; at fraction exactly 1 — which the recording
path can supply, since it clamps `stepTime / stepDuration` into `[0, 1]` —
it advances to the next raw step, wrapping to 1 past the loop end. -/
theorem C9_snap_at_full_threshold (rawStep loopLen : Nat) (f : ℚ) (hf : f < 1) :
    snapStepSubclock rawStep f 1 loopLen = rawStep ∧
    snapStepSubclock rawStep 1 1 loopLen =
      (if rawStep + 1 > loopLen then 1 else rawStep + 1) := by
  constructor
  · simp [snapStepSubclock, hf]
  · simp [snapStepSubclock]

/-- Witness for C9 at raw step 2, fraction 1/2, loop length 4. -/
theorem C9_witness :
    snapStepSubclock 2 (1 / 2) 1 4 = 2 ∧
    snapStepSubclock 2 1 1 4 = (if 2 + 1 > 4 then 1 else 2 + 1) :=
  C9_snap_at_full_threshold 2 4 (1 / 2) (by norm_num)

lemma tmodSmall {a b : Int} (h0 : 0 ≤ a) (h : a < b) : a.tmod b = a := by
  rw [Int.tmod_eq_emod h0 (by omega)]
  exact Int.emod_eq_of_lt h0 h

lemma oneToL_nodup (L : Nat) : (oneToL L).Nodup := by
  unfold oneToL
  exact List.Nodup.map_on (fun x hx y hy h => by omega) (List.nodup_range L)

lemma oneToL_length (L : Nat) : (oneToL L).length = L := by
  simp [oneToL]

lemma mem_oneToL {L : Nat} {a : Int} (h1 : 1 ≤ a) (h2 : a ≤ L) : a ∈ oneToL L := by
  unfold oneToL
  rw [List.mem_map]
  refine ⟨(a - 1).toNat, List.mem_range.mpr (by omega), by omega⟩

lemma perm_oneToL {f : Nat → Int} {L : Nat}
    (hmem : ∀ i < L, 1 ≤ f i ∧ f i ≤ L)
    (hinj : ∀ i < L, ∀ j < L, f i = f j → i = j) :
    ((List.range L).map f).Perm (oneToL L) := by
  have h1 : ((List.range L).map f).Nodup :=
    List.Nodup.map_on
      (fun x hx y hy h => hinj x (List.mem_range.mp hx) y (List.mem_range.mp hy) h)
      (List.nodup_range L)
  have hsub : ((List.range L).map f) ⊆ oneToL L := by
    intro a ha
    rw [List.mem_map] at ha
    obtain ⟨i, hi, rfl⟩ := ha
    obtain ⟨hge, hle⟩ := hmem i (List.mem_range.mp hi)
    exact mem_oneToL hge hle
  refine (h1.subperm hsub).perm_of_length_le ?_
  have e1 : ((List.range L).map f).length = L := by simp
  rw [e1, oneToL_length]

lemma gsfc_eq_forward (c L stride : Int) (st : Nat) (hL : L ≠ 1) (hc : ¬ c < 1) :
    getStepForClock c L 0 stride st = (dirForward c L, st) := by
  unfold getStepForClock
  rw [if_neg hL, if_neg hc, if_neg (by norm_num)]
  rfl

lemma gsfc_eq_reverse (c L stride : Int) (st : Nat) (hL : L ≠ 1) (hc : ¬ c < 1) :
    getStepForClock c L 1 stride st = (dirReverse c L, st) := by
  unfold getStepForClock
  rw [if_neg hL, if_neg hc, if_neg (by norm_num)]
  rfl

lemma gsfc_eq_pendulum (c L stride : Int) (st : Nat) (hL : L ≠ 1) (hc : ¬ c < 1) :
    getStepForClock c L 2 stride st = (dirPendulum c L, st) := by
  unfold getStepForClock
  rw [if_neg hL, if_neg hc, if_neg (by norm_num)]
  rfl

lemma gsfc_eq_pingpong (c L stride : Int) (st : Nat) (hL : L ≠ 1) (hc : ¬ c < 1) :
    getStepForClock c L 3 stride st = (dirPingPong c L, st) := by
  unfold getStepForClock
  rw [if_neg hL, if_neg hc, if_neg (by norm_num)]
  rfl

lemma gsfc_eq_stride (c L stride : Int) (st : Nat) (hL : L ≠ 1) (hc : ¬ c < 1) :
    getStepForClock c L 4 stride st = (dirStride c L stride, st) := by
  unfold getStepForClock
  rw [if_neg hL, if_neg hc, if_neg (by norm_num)]
  rfl

lemma gsfc_eq_oddeven (c L stride : Int) (st : Nat) (hL : L ≠ 1) (hc : ¬ c < 1) :
    getStepForClock c L 5 stride st = (dirOddEven c L, st) := by
  unfold getStepForClock
  rw [if_neg hL, if_neg hc, if_neg (by norm_num)]
  rfl

lemma gsfc_eq_hopscotch (c L stride : Int) (st : Nat) (hL : L ≠ 1) (hc : ¬ c < 1) :
    getStepForClock c L 6 stride st = (dirHopscotch c L, st) := by
  unfold getStepForClock
  rw [if_neg hL, if_neg hc, if_neg (by norm_num)]
  rfl

lemma gsfc_eq_converge (c L stride : Int) (st : Nat) (hL : L ≠ 1) (hc : ¬ c < 1) :
    getStepForClock c L 7 stride st = (dirConverge c L, st) := by
  unfold getStepForClock
  rw [if_neg hL, if_neg hc, if_neg (by norm_num)]
  rfl

lemma gsfc_eq_diverge (c L stride : Int) (st : Nat) (hL : L ≠ 1) (hc : ¬ c < 1) :
    getStepForClock c L 8 stride st = (dirDiverge c L, st) := by
  unfold getStepForClock
  rw [if_neg hL, if_neg hc, if_neg (by norm_num)]
  rfl

lemma gsfc_eq_fwd9 (c L stride : Int) (st : Nat) (hL : L ≠ 1) (hc : ¬ c < 1) :
    getStepForClock c L 9 stride st = (dirForward c L, st) := by
  unfold getStepForClock
  rw [if_neg hL, if_neg hc, if_neg (by norm_num)]
  rfl

lemma gsfc_eq_random (c L stride : Int) (st : Nat) (hL : L ≠ 1) (hc : ¬ c < 1) :
    getStepForClock c L 10 stride st = dirRandom L st := by
  unfold getStepForClock
  rw [if_neg hL, if_neg hc, if_neg (by norm_num)]
  rfl

lemma gsfc_eq_fwd11 (c L stride : Int) (st : Nat) (hL : L ≠ 1) (hc : ¬ c < 1) :
    getStepForClock c L 11 stride st = (dirForward c L, st) := by
  unfold getStepForClock
  rw [if_neg hL, if_neg hc, if_neg (by norm_num)]
  rfl

lemma dirForward_val (L i : Nat) (hL : 1 ≤ L) (hi : i < L) :
    dirForward ((i : Int) + 1) (L : Int) = (i : Int) + 1 := by
  unfold dirForward
  rw [show ((i : Int) + 1 - 1) = (i : Int) by ring, tmodSmall (by omega) (by omega)]

lemma dirReverse_val (L i : Nat) (hL : 1 ≤ L) (hi : i < L) :
    dirReverse ((i : Int) + 1) (L : Int) = (L : Int) - i := by
  unfold dirReverse
  rw [show ((i : Int) + 1 - 1) = (i : Int) by ring, tmodSmall (by omega) (by omega)]

lemma dirPendulum_val (L i : Nat) (hL : 2 ≤ L) (hi : i < L) :
    dirPendulum ((i : Int) + 1) (L : Int) = (i : Int) + 1 := by
  unfold dirPendulum
  dsimp only
  rw [show ((i : Int) + 1 - 1) = (i : Int) by ring, tmodSmall (by omega) (by omega),
    if_pos (by omega)]

lemma dirPingPong_val (L i : Nat) (hL : 1 ≤ L) (hi : i < L) :
    dirPingPong ((i : Int) + 1) (L : Int) = (i : Int) + 1 := by
  unfold dirPingPong
  dsimp only
  rw [show ((i : Int) + 1 - 1) = (i : Int) by ring, tmodSmall (by omega) (by omega),
    if_pos (by omega)]

lemma dirStride_val (L i : Nat) (hL : 1 ≤ L) (hi : i < L) (stride : Int) (hs : 0 ≤ stride) :
    dirStride ((i : Int) + 1) (L : Int) stride = ((i : Int) * stride) % (L : Int) + 1 := by
  unfold dirStride
  rw [show (((i : Int) + 1 - 1) * stride) = (i : Int) * stride by ring,
    @Int.tmod_eq_emod ((i : Int) * stride) (L : Int) (by positivity) (by omega)]

lemma dirOddEven_val (L i : Nat) (hL : 1 ≤ L) (hi : i < L) :
    dirOddEven ((i : Int) + 1) (L : Int) =
      (if (i : Int) + 1 ≤ ((L : Int) + 1) / 2 then ((i : Int) + 1 - 1) * 2 + 1
       else ((i : Int) + 1 - ((L : Int) + 1) / 2) * 2) := by
  unfold dirOddEven
  dsimp only
  rw [show ((i : Int) + 1 - 1) = (i : Int) by ring,
    @tmodSmall (i : Int) (L : Int) (by omega) (by omega),
    @Int.tdiv_eq_ediv ((L : Int) + 1) 2 (by omega) (by omega)]
  split <;> ring

lemma dirConverge_val (L i : Nat) (hL : 1 ≤ L) (hi : i < L) :
    dirConverge ((i : Int) + 1) (L : Int) =
      (if ((i : Int) + 1) % 2 = 1 then ((i : Int) + 1 + 1) / 2
       else (L : Int) - ((i : Int) + 1 + 1) / 2 + 1) := by
  unfold dirConverge
  dsimp only
  rw [show ((i : Int) + 1 - 1) = (i : Int) by ring,
    @tmodSmall (i : Int) (L : Int) (by omega) (by omega),
    @Int.tmod_eq_emod ((i : Int) + 1) 2 (by omega) (by omega),
    @Int.tdiv_eq_ediv ((i : Int) + 1 + 1) 2 (by omega) (by omega)]
lemma dirDiverge_val (L i : Nat) (hL : 1 ≤ L) (hi : i < L) :
    dirDiverge ((i : Int) + 1) (L : Int) =
      (if ((i : Int) + 1) % 2 = 1 then ((L : Int) + 1) / 2 - ((i : Int) + 1 + 1) / 2 + 1
       else ((L : Int) + 1) / 2 + ((i : Int) + 1 + 1) / 2) := by
  unfold dirDiverge
  dsimp only
  rw [show ((i : Int) + 1 - 1) = (i : Int) by ring,
    @tmodSmall (i : Int) (L : Int) (by omega) (by omega),
    @Int.tmod_eq_emod ((i : Int) + 1) 2 (by omega) (by omega),
    @Int.tdiv_eq_ediv ((L : Int) + 1) 2 (by omega) (by omega),
    @Int.tdiv_eq_ediv ((i : Int) + 1 + 1) 2 (by omega) (by omega)]
lemma tmod_bounds {a b : Int} (h0 : 0 ≤ a) (hb : 0 < b) : 0 ≤ a.tmod b ∧ a.tmod b < b := by
  rw [Int.tmod_eq_emod h0 (by omega)]
  exact ⟨Int.emod_nonneg a (by omega), Int.emod_lt_of_pos a hb⟩

lemma stepsForClocks_L1 (d stride : Int) (st : Nat) : stepsForClocks d 1 stride st = [1] := by
  simp [stepsForClocks, getStepForClock]

lemma oneToL_one : oneToL 1 = [1] := by decide

lemma randRange_bounds (st : Nat) (lo hi : Int) (h : lo ≤ hi) :
    lo ≤ (randRange st lo hi).1 ∧ (randRange st lo hi).1 ≤ hi := by
  unfold randRange
  by_cases hge : lo ≥ hi
  · rw [if_pos hge]
    exact ⟨le_refl lo, h⟩
  · have hpos : 0 < (hi - lo + 1).toNat := by omega
    have hmod := Nat.mod_lt (nextRand st).1 hpos
    simp only [hge, if_false]
    constructor
    · omega
    · omega

lemma perm_forward (L : Nat) (hL : 1 ≤ L) (stride : Int) (st : Nat) :
    (stepsForClocks 0 L stride st).Perm (oneToL L) := by
  rcases Nat.lt_or_ge L 2 with h2 | h2
  · have : L = 1 := by omega
    subst this
    rw [stepsForClocks_L1, oneToL_one]
  · unfold stepsForClocks
    apply perm_oneToL
    · intro i hi
      rw [gsfc_eq_forward _ _ _ _ (by omega) (by omega), dirForward_val L i (by omega) hi]
      omega
    · intro i hi j hj h
      rw [gsfc_eq_forward _ _ _ _ (by omega) (by omega), dirForward_val L i (by omega) hi,
        gsfc_eq_forward _ _ _ _ (by omega) (by omega), dirForward_val L j (by omega) hj] at h
      omega

lemma perm_reverse (L : Nat) (hL : 1 ≤ L) (stride : Int) (st : Nat) :
    (stepsForClocks 1 L stride st).Perm (oneToL L) := by
  rcases Nat.lt_or_ge L 2 with h2 | h2
  · have : L = 1 := by omega
    subst this
    rw [stepsForClocks_L1, oneToL_one]
  · unfold stepsForClocks
    apply perm_oneToL
    · intro i hi
      rw [gsfc_eq_reverse _ _ _ _ (by omega) (by omega), dirReverse_val L i (by omega) hi]
      omega
    · intro i hi j hj h
      rw [gsfc_eq_reverse _ _ _ _ (by omega) (by omega), dirReverse_val L i (by omega) hi,
        gsfc_eq_reverse _ _ _ _ (by omega) (by omega), dirReverse_val L j (by omega) hj] at h
      omega

lemma perm_pendulum (L : Nat) (hL : 1 ≤ L) (stride : Int) (st : Nat) :
    (stepsForClocks 2 L stride st).Perm (oneToL L) := by
  rcases Nat.lt_or_ge L 2 with h2 | h2
  · have : L = 1 := by omega
    subst this
    rw [stepsForClocks_L1, oneToL_one]
  · unfold stepsForClocks
    apply perm_oneToL
    · intro i hi
      rw [gsfc_eq_pendulum _ _ _ _ (by omega) (by omega), dirPendulum_val L i h2 hi]
      omega
    · intro i hi j hj h
      rw [gsfc_eq_pendulum _ _ _ _ (by omega) (by omega), dirPendulum_val L i h2 hi,
        gsfc_eq_pendulum _ _ _ _ (by omega) (by omega), dirPendulum_val L j h2 hj] at h
      omega

lemma perm_pingpong (L : Nat) (hL : 1 ≤ L) (stride : Int) (st : Nat) :
    (stepsForClocks 3 L stride st).Perm (oneToL L) := by
  rcases Nat.lt_or_ge L 2 with h2 | h2
  · have : L = 1 := by omega
    subst this
    rw [stepsForClocks_L1, oneToL_one]
  · unfold stepsForClocks
    apply perm_oneToL
    · intro i hi
      rw [gsfc_eq_pingpong _ _ _ _ (by omega) (by omega), dirPingPong_val L i (by omega) hi]
      omega
    · intro i hi j hj h
      rw [gsfc_eq_pingpong _ _ _ _ (by omega) (by omega), dirPingPong_val L i (by omega) hi,
        gsfc_eq_pingpong _ _ _ _ (by omega) (by omega), dirPingPong_val L j (by omega) hj] at h
      omega

lemma perm_oddeven (L : Nat) (hL : 1 ≤ L) (stride : Int) (st : Nat) :
    (stepsForClocks 5 L stride st).Perm (oneToL L) := by
  rcases Nat.lt_or_ge L 2 with h2 | h2
  · have : L = 1 := by omega
    subst this
    rw [stepsForClocks_L1, oneToL_one]
  · unfold stepsForClocks
    apply perm_oneToL
    · intro i hi
      rw [gsfc_eq_oddeven _ _ _ _ (by omega) (by omega), dirOddEven_val L i (by omega) hi]
      split <;> omega
    · intro i hi j hj h
      rw [gsfc_eq_oddeven _ _ _ _ (by omega) (by omega), dirOddEven_val L i (by omega) hi,
        gsfc_eq_oddeven _ _ _ _ (by omega) (by omega), dirOddEven_val L j (by omega) hj] at h
      split at h <;> split at h <;> omega

lemma perm_converge (L : Nat) (hL : 1 ≤ L) (stride : Int) (st : Nat) :
    (stepsForClocks 7 L stride st).Perm (oneToL L) := by
  rcases Nat.lt_or_ge L 2 with h2 | h2
  · have : L = 1 := by omega
    subst this
    rw [stepsForClocks_L1, oneToL_one]
  · unfold stepsForClocks
    apply perm_oneToL
    · intro i hi
      rw [gsfc_eq_converge _ _ _ _ (by omega) (by omega), dirConverge_val L i (by omega) hi]
      split <;> omega
    · intro i hi j hj h
      rw [gsfc_eq_converge _ _ _ _ (by omega) (by omega), dirConverge_val L i (by omega) hi,
        gsfc_eq_converge _ _ _ _ (by omega) (by omega), dirConverge_val L j (by omega) hj] at h
      split at h <;> split at h <;> omega

lemma perm_diverge (L : Nat) (hL : 1 ≤ L) (stride : Int) (st : Nat) :
    (stepsForClocks 8 L stride st).Perm (oneToL L) := by
  rcases Nat.lt_or_ge L 2 with h2 | h2
  · have : L = 1 := by omega
    subst this
    rw [stepsForClocks_L1, oneToL_one]
  · unfold stepsForClocks
    apply perm_oneToL
    · intro i hi
      rw [gsfc_eq_diverge _ _ _ _ (by omega) (by omega), dirDiverge_val L i (by omega) hi]
      split <;> omega
    · intro i hi j hj h
      rw [gsfc_eq_diverge _ _ _ _ (by omega) (by omega), dirDiverge_val L i (by omega) hi,
        gsfc_eq_diverge _ _ _ _ (by omega) (by omega), dirDiverge_val L j (by omega) hj] at h
      split at h <;> split at h <;> omega

lemma perm_stride (L : Nat) (hL : 1 ≤ L) (stride : Int) (hs : 1 ≤ stride)
    (hcop : Int.gcd stride (L : Int) = 1) (st : Nat) :
    (stepsForClocks 4 L stride st).Perm (oneToL L) := by
  rcases Nat.lt_or_ge L 2 with h2 | h2
  · have : L = 1 := by omega
    subst this
    rw [stepsForClocks_L1, oneToL_one]
  · unfold stepsForClocks
    apply perm_oneToL
    · intro i hi
      rw [gsfc_eq_stride _ _ _ _ (by omega) (by omega),
        dirStride_val L i (by omega) hi stride (by omega)]
      have e1 := Int.emod_nonneg ((i : Int) * stride) (b := (L : Int))
      have h1 : 0 ≤ ((i : Int) * stride) % (L : Int) := Int.emod_nonneg _ (by omega)
      have h2' : ((i : Int) * stride) % (L : Int) < L := Int.emod_lt_of_pos _ (by omega)
      omega
    · intro i hi j hj h
      rw [gsfc_eq_stride _ _ _ _ (by omega) (by omega),
        dirStride_val L i (by omega) hi stride (by omega),
        gsfc_eq_stride _ _ _ _ (by omega) (by omega),
        dirStride_val L j (by omega) hj stride (by omega)] at h
      have h' : ((i : Int) * stride) % (L : Int) = ((j : Int) * stride) % (L : Int) := by omega
      set sn := stride.toNat with hsn
      have hcast : stride = (sn : Int) := by omega
      rw [hcast] at h'
      have hnat : (i * sn) % L = (j * sn) % L := by
        have hc2 : (((i * sn) % L : Nat) : Int) = (((j * sn) % L : Nat) : Int) := by
          push_cast
          exact h'
        exact_mod_cast hc2
      have hcop' : Nat.gcd L sn = 1 := by
        have e2 : Int.gcd stride (L : Int) = Nat.gcd sn L := by
          unfold Int.gcd
          rw [hcast]
          simp
        rw [Nat.gcd_comm]
        omega
      have hmodeq : Nat.ModEq L (i * sn) (j * sn) := hnat
      have hij := Nat.ModEq.cancel_right_of_coprime hcop' hmodeq
      have : i % L = j % L := hij
      rw [Nat.mod_eq_of_lt hi, Nat.mod_eq_of_lt hj] at this
      exact this

lemma dirForward_range (c L : Int) (hc : 1 ≤ c) (hL : 1 ≤ L) :
    1 ≤ dirForward c L ∧ dirForward c L ≤ L := by
  unfold dirForward
  obtain ⟨b1, b2⟩ := @tmod_bounds (c - 1) L (by omega) (by omega)
  omega

lemma dirStride_range (c L stride : Int) (hc : 1 ≤ c) (hL : 1 ≤ L) (hs : 0 ≤ stride) :
    1 ≤ dirStride c L stride ∧ dirStride c L stride ≤ L := by
  unfold dirStride
  obtain ⟨b1, b2⟩ := @tmod_bounds ((c - 1) * stride) L (mul_nonneg (by omega) hs) (by omega)
  omega

lemma dirHopscotch_range (c L : Int) (hc : 1 ≤ c) (hL : 1 ≤ L) :
    1 ≤ dirHopscotch c L ∧ dirHopscotch c L ≤ L := by
  unfold dirHopscotch
  dsimp only
  rw [@Int.tmod_eq_emod (c - 1) (L * 2) (by omega) (by positivity)]
  have hx1 : 0 ≤ (c - 1) % (L * 2) := Int.emod_nonneg _ (by positivity)
  have hx2 : (c - 1) % (L * 2) < L * 2 := Int.emod_lt_of_pos _ (by positivity)
  rw [@Int.tdiv_eq_ediv ((c - 1) % (L * 2) + 1 + 1) 2 (by omega) (by omega)]
  have hy1 : 1 ≤ ((c - 1) % (L * 2) + 1 + 1) / 2 := by omega
  have hy2 : ((c - 1) % (L * 2) + 1 + 1) / 2 ≤ L := by omega
  split
  · rw [@Int.tmod_eq_emod (((c - 1) % (L * 2) + 1 + 1) / 2 - 1) L (by omega) (by omega)]
    have b1 : 0 ≤ (((c - 1) % (L * 2) + 1 + 1) / 2 - 1) % L := Int.emod_nonneg _ (by omega)
    have b2 : (((c - 1) % (L * 2) + 1 + 1) / 2 - 1) % L < L := Int.emod_lt_of_pos _ (by omega)
    omega
  · rw [@Int.tmod_eq_emod (((c - 1) % (L * 2) + 1 + 1) / 2) L (by omega) (by omega)]
    have b1 : 0 ≤ (((c - 1) % (L * 2) + 1 + 1) / 2) % L := Int.emod_nonneg _ (by omega)
    have b2 : (((c - 1) % (L * 2) + 1 + 1) / 2) % L < L := Int.emod_lt_of_pos _ (by omega)
    rw [@Int.tmod_eq_emod ((((c - 1) % (L * 2) + 1 + 1) / 2) % L + 1 - 2 + L) L
      (by omega) (by omega)]
    have b3 : 0 ≤ ((((c - 1) % (L * 2) + 1 + 1) / 2) % L + 1 - 2 + L) % L :=
      Int.emod_nonneg _ (by omega)
    have b4 : ((((c - 1) % (L * 2) + 1 + 1) / 2) % L + 1 - 2 + L) % L < L :=
      Int.emod_lt_of_pos _ (by omega)
    omega

lemma updateBrownianStep_range (pos L : Int) (hp : 1 ≤ pos) (hL : 1 ≤ L) (rs : Nat) :
    1 ≤ (updateBrownianStep pos L rs).1 ∧ (updateBrownianStep pos L rs).1 ≤ L := by
  unfold updateBrownianStep
  obtain ⟨d1, d2⟩ := randRange_bounds rs BROWNIAN_DELTA_MIN BROWNIAN_DELTA_MAX (by decide)
  dsimp only
  set d := (randRange rs BROWNIAN_DELTA_MIN BROWNIAN_DELTA_MAX).1 with hd
  have hmin : BROWNIAN_DELTA_MIN = -2 := rfl
  have hmax : BROWNIAN_DELTA_MAX = 2 := rfl
  set d2' := if d = 0 then 1 else d with hd2
  have hd2b : -2 ≤ d2' ∧ d2' ≤ 2 := by
    rw [hd2]
    split <;> omega
  obtain ⟨b1, b2⟩ := @tmod_bounds (pos + d2' - 1 + L * 100) L (by omega) (by omega)
  omega

lemma shuffleSwap_preserves (L : Nat) (acc : (Nat → Nat) × Nat) (k : Nat)
    (hk : k < L)
    (hinv : ∀ i < L, 1 ≤ acc.1 i ∧ acc.1 i ≤ L) :
    ∀ i < L, 1 ≤ (shuffleSwap acc k).1 i ∧ (shuffleSwap acc k).1 i ≤ L := by
  intro i hi
  unfold shuffleSwap
  obtain ⟨j1, j2⟩ := randRange_bounds acc.2 0 (k : Int) (by omega)
  dsimp only
  have hjn : (randRange acc.2 0 (k : Int)).1.toNat < L := by omega
  split
  · exact hinv _ hjn
  · split
    · exact hinv _ hk
    · exact hinv _ hi

lemma shuffle_fold_preserves (L : Nat) (l : List Nat) (hl : ∀ x ∈ l, x < L) :
    ∀ acc : (Nat → Nat) × Nat, (∀ i < L, 1 ≤ acc.1 i ∧ acc.1 i ≤ L) →
      ∀ i < L, 1 ≤ (l.foldl shuffleSwap acc).1 i ∧ (l.foldl shuffleSwap acc).1 i ≤ L := by
  induction l with
  | nil => intro acc hinv; exact hinv
  | cons x xs ih =>
    intro acc hinv
    rw [List.foldl_cons]
    exact ih (fun y hy => hl y (List.mem_cons_of_mem x hy)) _
      (shuffleSwap_preserves L acc x (hl x (List.mem_cons_self x xs)) hinv)

lemma generateShuffleOrder_range (order : Nat → Nat) (L : Nat) (hL : 1 ≤ L) (rs : Nat) :
    ∀ i < L, 1 ≤ (generateShuffleOrder order L rs).1 i ∧
      (generateShuffleOrder order L rs).1 i ≤ L := by
  unfold generateShuffleOrder
  apply shuffle_fold_preserves
  · intro x hx
    rw [List.mem_reverse, List.mem_range'] at hx
    omega
  · intro i hi
    simp only [if_pos hi]
    omega

/-- Claim C3 fails on the code three ways.  Hopscotch (direction 6) over
`L = 2` consecutive clocks returns `[1, 1]`, not a permutation of `1..=2`
(its pair pattern needs `2 L` clocks and still repeats steps).  Stride
(direction 4) with stride 2 over `L = 4` returns `[1, 3, 1, 3]`, so a
non-coprime stride is not a permutation either.  And the coprime stride
`-1` over `L = 2` returns `[1, 0]`, leaving `1..=L` entirely, so
coprimality alone does not make Stride a permutation: the stride must
also be at least 1. -/
theorem C3_counterexample :
    (stepsForClocks 6 2 1 0 = [1, 1] ∧ ¬ (stepsForClocks 6 2 1 0).Perm (oneToL 2)) ∧
    (stepsForClocks 4 4 2 0 = [1, 3, 1, 3] ∧
      ¬ (stepsForClocks 4 4 2 0).Perm (oneToL 4)) ∧
    (Int.gcd (-1) ((2 : Nat) : Int) = 1 ∧ stepsForClocks 4 2 (-1) 0 = [1, 0] ∧
      ¬ (stepsForClocks 4 2 (-1) 0).Perm (oneToL 2)) := by
  refine ⟨⟨?_, ?_⟩, ⟨?_, ?_⟩, ?_, ?_, ?_⟩
  · decide
  · decide
  · decide
  · decide
  · decide
  · decide
  · decide

/-- Claim C3 (amended): over `L` consecutive clocks starting fresh,
Forward, Reverse, Pendulum, Ping-Pong, Odd/Even, Converge and Diverge
produce a permutation of `1..=L`; Stride produces one when its stride is
at least 1 and coprime with `L` (not in general otherwise: a non-coprime
stride repeats steps, and a negative coprime stride can leave the range);
Hopscotch, Stride with non-negative stride, the two stateless
placeholders, Random, Brownian and the regenerated Shuffle order all stay
within `1..=L`. -/
theorem C3_direction_cycles (L : Nat) (hL : 1 ≤ L) (stride : Int) (st : Nat) :
    (∀ d ∈ ([0, 1, 2, 3, 5, 7, 8] : List Int),
        (stepsForClocks d L stride st).Perm (oneToL L)) ∧
    (1 ≤ stride → Int.gcd stride (L : Int) = 1 →
        (stepsForClocks 4 L stride st).Perm (oneToL L)) ∧
    (∀ d ∈ ([4, 6, 9, 10, 11] : List Int), 0 ≤ stride → ∀ c : Int, 1 ≤ c →
        1 ≤ (getStepForClock c (L : Int) d stride st).1 ∧
        (getStepForClock c (L : Int) d stride st).1 ≤ (L : Int)) ∧
    (∀ pos : Int, 1 ≤ pos → ∀ rs : Nat,
        1 ≤ (updateBrownianStep pos (L : Int) rs).1 ∧
        (updateBrownianStep pos (L : Int) rs).1 ≤ (L : Int)) ∧
    (∀ order rs, ∀ i < L, 1 ≤ (generateShuffleOrder order L rs).1 i ∧
        (generateShuffleOrder order L rs).1 i ≤ L) := by
  refine ⟨?_, ?_, ?_, ?_, ?_⟩
  · intro d hd
    simp only [List.mem_cons, List.not_mem_nil, or_false] at hd
    rcases hd with rfl | rfl | rfl | rfl | rfl | rfl | rfl
    · exact perm_forward L hL stride st
    · exact perm_reverse L hL stride st
    · exact perm_pendulum L hL stride st
    · exact perm_pingpong L hL stride st
    · exact perm_oddeven L hL stride st
    · exact perm_converge L hL stride st
    · exact perm_diverge L hL stride st
  · intro hs hcop
    exact perm_stride L hL stride hs hcop st
  · intro d hd hs c hc
    rcases Nat.lt_or_ge L 2 with h2 | h2
    · have hL1 : L = 1 := by omega
      subst hL1
      simp [getStepForClock]
    · have hLne : (L : Int) ≠ 1 := by omega
      have hcne : ¬ c < 1 := by omega
      simp only [List.mem_cons, List.not_mem_nil, or_false] at hd
      rcases hd with rfl | rfl | rfl | rfl | rfl
      · rw [gsfc_eq_stride _ _ _ _ hLne hcne]
        exact dirStride_range c L stride hc (by omega) hs
      · rw [gsfc_eq_hopscotch _ _ _ _ hLne hcne]
        exact dirHopscotch_range c L hc (by omega)
      · rw [gsfc_eq_fwd9 _ _ _ _ hLne hcne]
        exact dirForward_range c L hc (by omega)
      · rw [gsfc_eq_random _ _ _ _ hLne hcne]
        exact randRange_bounds st 1 (L : Int) (by omega)
      · rw [gsfc_eq_fwd11 _ _ _ _ hLne hcne]
        exact dirForward_range c L hc (by omega)
  · intro pos hp rs
    exact updateBrownianStep_range pos (L : Int) hp (by omega) rs
  · intro order rs
    exact generateShuffleOrder_range order L hL rs

/-- Witness for C3 at loop length 4, stride 1, PRNG state 0. -/
theorem C3_witness :
    ((∀ d ∈ ([0, 1, 2, 3, 5, 7, 8] : List Int),
        (stepsForClocks d 4 1 0).Perm (oneToL 4)) ∧
    (1 ≤ (1 : Int) → Int.gcd 1 ((4 : Nat) : Int) = 1 →
        (stepsForClocks 4 4 1 0).Perm (oneToL 4)) ∧
    (∀ d ∈ ([4, 6, 9, 10, 11] : List Int), 0 ≤ (1 : Int) → ∀ c : Int, 1 ≤ c →
        1 ≤ (getStepForClock c ((4 : Nat) : Int) d 1 0).1 ∧
        (getStepForClock c ((4 : Nat) : Int) d 1 0).1 ≤ ((4 : Nat) : Int)) ∧
    (∀ pos : Int, 1 ≤ pos → ∀ rs : Nat,
        1 ≤ (updateBrownianStep pos ((4 : Nat) : Int) rs).1 ∧
        (updateBrownianStep pos ((4 : Nat) : Int) rs).1 ≤ ((4 : Nat) : Int)) ∧
    (∀ order rs, ∀ i < 4, 1 ≤ (generateShuffleOrder order 4 rs).1 i ∧
        (generateShuffleOrder order 4 rs).1 i ≤ 4)) :=
  C3_direction_cycles 4 (by decide) 1 0


lemma setTrack_v (s : AlgState) (t : Nat) (ts : TrackState) : (setTrack s t ts).v = s.v := rfl

lemma setTrack_numTracks (s : AlgState) (t : Nat) (ts : TrackState) :
    (setTrack s t ts).numTracks = s.numTracks := rfl

lemma setTrack_dtc (s : AlgState) (t : Nat) (ts : TrackState) :
    (setTrack s t ts).dtc = s.dtc := rfl

lemma setTrack_heldNotes (s : AlgState) (t : Nat) (ts : TrackState) :
    (setTrack s t ts).heldNotes = s.heldNotes := rfl

lemma setTrack_delayedNotes (s : AlgState) (t : Nat) (ts : TrackState) :
    (setTrack s t ts).delayedNotes = s.delayedNotes := rfl

lemma setTrack_tracks_self (s : AlgState) (t : Nat) (ts : TrackState) :
    (setTrack s t ts).tracks t = ts := by
  simp [setTrack]

lemma setTrack_tracks_other (s : AlgState) (t : Nat) (ts : TrackState) (u : Nat)
    (h : u ≠ t) : (setTrack s t ts).tracks u = s.tracks u := by
  simp [setTrack, Function.update_noteq h]

lemma finalizeHeldNotesStep_frame (s : AlgState) (n : Nat) :
    (finalizeHeldNotesStep s n).v = s.v ∧
    (finalizeHeldNotesStep s n).numTracks = s.numTracks ∧
    (finalizeHeldNotesStep s n).dtc = s.dtc ∧
    (finalizeHeldNotesStep s n).delayedNotes = s.delayedNotes := by
  unfold finalizeHeldNotesStep
  dsimp only
  split
  · exact ⟨rfl, rfl, rfl, rfl⟩
  · exact ⟨rfl, rfl, rfl, rfl⟩

lemma finalizeHeldNotes_fold_frame (l : List Nat) (s : AlgState) :
    (l.foldl finalizeHeldNotesStep s).v = s.v ∧
    (l.foldl finalizeHeldNotesStep s).numTracks = s.numTracks ∧
    (l.foldl finalizeHeldNotesStep s).dtc = s.dtc ∧
    (l.foldl finalizeHeldNotesStep s).delayedNotes = s.delayedNotes := by
  induction l generalizing s with
  | nil => exact ⟨rfl, rfl, rfl, rfl⟩
  | cons x xs ih =>
    rw [List.foldl_cons]
    obtain ⟨h1, h2, h3, h4⟩ := ih (finalizeHeldNotesStep s x)
    obtain ⟨g1, g2, g3, g4⟩ := finalizeHeldNotesStep_frame s x
    exact ⟨h1.trans g1, h2.trans g2, h3.trans g3, h4.trans g4⟩

lemma finalizeHeldNotes_frame (s : AlgState) :
    (finalizeHeldNotes s).v = s.v ∧
    (finalizeHeldNotes s).numTracks = s.numTracks ∧
    (finalizeHeldNotes s).dtc = s.dtc ∧
    (finalizeHeldNotes s).delayedNotes = s.delayedNotes := by
  unfold finalizeHeldNotes
  exact finalizeHeldNotes_fold_frame (List.range 128) s

lemma finalizeHeldNotesStep_deactivates (s : AlgState) (n : Nat) :
    ¬ ((finalizeHeldNotesStep s n).heldNotes n).active := by
  unfold finalizeHeldNotesStep
  dsimp only
  split
  next h => simpa using h
  next h => simp [setTrack]

lemma finalizeHeldNotesStep_mono (s : AlgState) (n i : Nat)
    (h : ((finalizeHeldNotesStep s n).heldNotes i).active) :
    (s.heldNotes i).active := by
  unfold finalizeHeldNotesStep at h
  dsimp only at h
  split at h
  · exact h
  · simp only [setTrack] at h
    by_cases hne : i = n
    · subst hne
      simp at h
    · rwa [Function.update_noteq hne] at h

lemma finalizeHeldNotes_fold_mono (l : List Nat) (s : AlgState) (i : Nat)
    (h : ((l.foldl finalizeHeldNotesStep s).heldNotes i).active) :
    (s.heldNotes i).active := by
  induction l generalizing s with
  | nil => exact h
  | cons x xs ih =>
    rw [List.foldl_cons] at h
    exact finalizeHeldNotesStep_mono s x i (ih (finalizeHeldNotesStep s x) h)

lemma finalizeHeldNotes_fold_inactive (l : List Nat) (s : AlgState) (i : Nat)
    (hi : i ∈ l) : ¬ ((l.foldl finalizeHeldNotesStep s).heldNotes i).active := by
  induction l generalizing s with
  | nil => cases hi
  | cons x xs ih =>
    rw [List.foldl_cons]
    rcases List.mem_cons.mp hi with rfl | hmem
    · intro hact
      exact finalizeHeldNotesStep_deactivates s i
        (finalizeHeldNotes_fold_mono xs _ i hact)
    · exact ih _ hmem

lemma finalizeHeldNotes_inactive (s : AlgState) (i : Nat) (hi : i < 128) :
    ¬ ((finalizeHeldNotes s).heldNotes i).active := by
  unfold finalizeHeldNotes
  exact finalizeHeldNotes_fold_inactive (List.range 128) s i (List.mem_range.mpr hi)

/-- Claim C7 fails on the code: stopping with two tracks configured to the
same output channel and destination emits two identical CC-123 messages,
not one per unique channel in use. -/
theorem C7_counterexample :
    (handleTransportStop (initState 2 (fun _ => 0))).2 =
      [⟨1, 0xB0, 123, 0⟩, ⟨1, 0xB0, 123, 0⟩] ∧
    ((handleTransportStop (initState 2 (fun _ => 0))).2.count ⟨1, 0xB0, 123, 0⟩) ≠ 1 := by
  constructor
  · rfl
  · decide

set_option maxRecDepth 4000 in
/-- Claim C7 (amended): transport stop finalizes held notes when live
recording is in progress, transitions to STOPPED, emits exactly one CC-123
all-notes-off message per track (on that track's channel and destination,
so channels shared between tracks receive duplicates), deactivates every
playing-note slot and delayed-note pool entry, and zeroes every track's
UI-visible active velocity. -/
theorem C7_transport_stop (s : AlgState) :
    (handleTransportStop s).2 =
      (List.range s.numTracks).map (fun t =>
        ⟨destToWhere (tpDestination s.v t), withChannel kMidiCC (tpChannel s.v t), 123, 0⟩) ∧
    (handleTransportStop s).1.dtc.transportState = TransportState.STOPPED ∧
    (s.dtc.recordState = RecordState.LIVE →
      (handleTransportStop s).1.dtc.recordState = RecordState.IDLE ∧
      ∀ i < 128, ¬ ((handleTransportStop s).1.heldNotes i).active) ∧
    (∀ t, t < s.numTracks → ∀ n, n < 128 →
      ¬ (((handleTransportStop s).1.tracks t).playing n).active ∧
      ((handleTransportStop s).1.tracks t).activeNotes n = 0 ∧
      ((handleTransportStop s).1.tracks t).activeVel = 0) ∧
    (∀ i, i < MAX_DELAYED_NOTES → ¬ ((handleTransportStop s).1.delayedNotes i).active) := by
  unfold handleTransportStop
  dsimp only
  by_cases hrec : s.dtc.recordState = RecordState.LIVE
  · obtain ⟨fv, fn, fd, fdel⟩ := finalizeHeldNotes_frame s
    rw [if_pos hrec]
    refine ⟨?_, rfl, fun _ => ⟨rfl, ?_⟩, ?_, ?_⟩
    · unfold sendAllNotesOff
      dsimp only
      rw [fv, fn]
    · intro i hi
      exact finalizeHeldNotes_inactive s i hi
    · intro t ht n hn
      simp only [fn]
      simp only [if_pos ht, if_pos hn]
      exact ⟨(fun h => nomatch h), by trivial, by trivial⟩
    · intro i hi
      simp only [if_pos hi]
      exact fun h => nomatch h
  · rw [if_neg hrec]
    refine ⟨rfl, rfl, fun h => absurd h hrec, ?_, ?_⟩
    · intro t ht n hn
      simp only [if_pos ht, if_pos hn]
      exact ⟨(fun h => nomatch h), by trivial, by trivial⟩
    · intro i hi
      simp only [if_pos hi]
      exact fun h => nomatch h

/-- Witness for C7 on a two-track engine in live recording. -/
theorem C7_witness :
    (handleTransportStop (liveInitState 2 (fun _ => 0))).2 =
      (List.range 2).map (fun t =>
        ⟨destToWhere (tpDestination (fun _ => 0) t),
          withChannel kMidiCC (tpChannel (fun _ => 0) t), 123, 0⟩) ∧
    (handleTransportStop (liveInitState 2 (fun _ => 0))).1.dtc.transportState =
      TransportState.STOPPED ∧
    (handleTransportStop (liveInitState 2 (fun _ => 0))).1.dtc.recordState =
      RecordState.IDLE ∧
    ¬ ((handleTransportStop (liveInitState 2 (fun _ => 0))).1.heldNotes 60).active ∧
    ¬ (((handleTransportStop (liveInitState 2 (fun _ => 0))).1.tracks 0).playing 60).active ∧
    ¬ ((handleTransportStop (liveInitState 2 (fun _ => 0))).1.delayedNotes 0).active := by
  obtain ⟨h1, h2, h3, h4, h5⟩ := C7_transport_stop (liveInitState 2 (fun _ => 0))
  obtain ⟨h3a, h3b⟩ := h3 rfl
  exact ⟨h1, h2, h3a, h3b 60 (by decide), (h4 0 (by decide) 60 (by decide)).1,
    h5 0 (by decide)⟩

lemma stnoStep_state (track n : Nat) (s : AlgState) (msgs : List MidiMsg) :
    (sendTrackNotesOffStep track (s, msgs) n).1 =
      setTrack s track { s.tracks track with
        activeNotes := (Function.update (s.tracks track).activeNotes n 0),
        playing := (Function.update (s.tracks track).playing n
          { (s.tracks track).playing n with active := false }) } := by
  unfold sendTrackNotesOffStep
  dsimp only

lemma stnoStep_msgs (track n : Nat) (s : AlgState) (msgs : List MidiMsg) :
    (sendTrackNotesOffStep track (s, msgs) n).2 =
      msgs ++ (if ((s.tracks track).playing n).active ∧
          ¬ isNoteSharedByOtherTrack s track n ((s.tracks track).playing n).outCh
              ((s.tracks track).playing n).whereMask then
        [⟨((s.tracks track).playing n).whereMask,
          withChannel kMidiNoteOff ((s.tracks track).playing n).outCh, n, 0⟩]
      else []) := by
  unfold sendTrackNotesOffStep
  dsimp only
  split
  · simp
  · simp

lemma list_any_congr {α : Type} (l : List α) (f g : α → Bool)
    (h : ∀ a ∈ l, f a = g a) : l.any f = l.any g := by
  induction l with
  | nil => rfl
  | cons x xs ih =>
    simp only [List.any_cons]
    rw [h x (List.mem_cons_self x xs), ih (fun a ha => h a (List.mem_cons_of_mem x ha))]

lemma shared_congr (s s' : AlgState) (track n : Nat) (ch : Int) (w : Nat)
    (hnum : s'.numTracks = s.numTracks)
    (htr : ∀ u, u ≠ track → s'.tracks u = s.tracks u) :
    isNoteSharedByOtherTrack s' track n ch w = isNoteSharedByOtherTrack s track n ch w := by
  unfold isNoteSharedByOtherTrack
  rw [hnum]
  apply list_any_congr
  intro t ht
  by_cases hcase : t = track
  · subst hcase
    simp
  · rw [htr t hcase]

lemma stno_fold (track : Nat) (l : List Nat) :
    l.Nodup → ∀ (s : AlgState) (msgs0 : List MidiMsg),
      (∀ u, u ≠ track →
        ((l.foldl (sendTrackNotesOffStep track) (s, msgs0)).1).tracks u = s.tracks u) ∧
      ((l.foldl (sendTrackNotesOffStep track) (s, msgs0)).1).numTracks = s.numTracks ∧
      (∀ m, m ∉ l →
        (((l.foldl (sendTrackNotesOffStep track) (s, msgs0)).1).tracks track).playing m =
          (s.tracks track).playing m ∧
        (((l.foldl (sendTrackNotesOffStep track) (s, msgs0)).1).tracks track).activeNotes m =
          (s.tracks track).activeNotes m) ∧
      (∀ m ∈ l,
        ¬ ((((l.foldl (sendTrackNotesOffStep track) (s, msgs0)).1).tracks track).playing m).active ∧
        (((l.foldl (sendTrackNotesOffStep track) (s, msgs0)).1).tracks track).activeNotes m = 0) ∧
      (∀ msg : MidiMsg, msg.d1 ∉ l →
        (msg ∈ (l.foldl (sendTrackNotesOffStep track) (s, msgs0)).2 ↔ msg ∈ msgs0)) ∧
      (∀ m ∈ l,
        ((⟨((s.tracks track).playing m).whereMask,
            withChannel kMidiNoteOff ((s.tracks track).playing m).outCh, m, 0⟩ : MidiMsg)
          ∈ (l.foldl (sendTrackNotesOffStep track) (s, msgs0)).2 ↔
        ((⟨((s.tracks track).playing m).whereMask,
            withChannel kMidiNoteOff ((s.tracks track).playing m).outCh, m, 0⟩ : MidiMsg)
            ∈ msgs0 ∨
          (((s.tracks track).playing m).active ∧
            ¬ isNoteSharedByOtherTrack s track m ((s.tracks track).playing m).outCh
              ((s.tracks track).playing m).whereMask)))) := by
  induction l with
  | nil =>
    intro _ s msgs0
    refine ⟨fun u hu => rfl, rfl, fun m hm => ⟨rfl, rfl⟩,
      fun m hm => absurd hm (List.not_mem_nil m),
      fun msg h => Iff.rfl,
      fun m hm => absurd hm (List.not_mem_nil m)⟩
  | cons x xs ih =>
    intro hnd s msgs0
    obtain ⟨hx, hnd2⟩ := List.nodup_cons.mp hnd
    rw [List.foldl_cons]
    have hstate := stnoStep_state track x s msgs0
    have hmsgs := stnoStep_msgs track x s msgs0
    obtain ⟨iA, iN, iB, iC, iD, iE⟩ :=
      ih hnd2 (sendTrackNotesOffStep track (s, msgs0) x).1
        (sendTrackNotesOffStep track (s, msgs0) x).2
    have hA1 : ∀ u, u ≠ track →
        (sendTrackNotesOffStep track (s, msgs0) x).1.tracks u = s.tracks u := by
      intro u hu
      rw [hstate]
      exact setTrack_tracks_other s track _ u hu
    have hN1 : (sendTrackNotesOffStep track (s, msgs0) x).1.numTracks = s.numTracks := by
      rw [hstate]
      rfl
    have htr : (sendTrackNotesOffStep track (s, msgs0) x).1.tracks track =
        { s.tracks track with
          activeNotes := (Function.update (s.tracks track).activeNotes x 0),
          playing := (Function.update (s.tracks track).playing x
            { (s.tracks track).playing x with active := false }) } := by
      rw [hstate]
      exact setTrack_tracks_self s track _
    refine ⟨?_, ?_, ?_, ?_, ?_, ?_⟩
    · intro u hu
      rw [iA u hu, hA1 u hu]
    · rw [iN, hN1]
    · intro m hm
      have hm1 : m ≠ x := fun h => hm (h ▸ List.mem_cons_self x xs)
      have hm2 : m ∉ xs := fun h => hm (List.mem_cons_of_mem x h)
      obtain ⟨e1, e2⟩ := iB m hm2
      rw [e1, e2, htr]
      exact ⟨Function.update_noteq hm1 _ _, Function.update_noteq hm1 _ _⟩
    · intro m hm
      rcases List.mem_cons.mp hm with rfl | hmem
      · obtain ⟨e1, e2⟩ := iB m hx
        rw [e1, e2, htr]
        constructor
        · simp
        · simp
      · exact iC m hmem
    · intro msg hmsg
      have hd1 : msg.d1 ∉ xs := fun h => hmsg (List.mem_cons_of_mem x h)
      have hd2 : msg.d1 ≠ x := fun h => hmsg (h ▸ List.mem_cons_self x xs)
      rw [iD msg hd1, hmsgs]
      by_cases hc : ((s.tracks track).playing x).active ∧
          ¬ isNoteSharedByOtherTrack s track x ((s.tracks track).playing x).outCh
            ((s.tracks track).playing x).whereMask
      · rw [if_pos hc]
        simp only [List.mem_append, List.mem_singleton]
        constructor
        · rintro (h | rfl)
          · exact h
          · exact absurd rfl hd2
        · exact fun h => Or.inl h
      · rw [if_neg hc]
        simp
    · intro m hm
      rcases List.mem_cons.mp hm with rfl | hmem
      · have hd1 : (⟨((s.tracks track).playing m).whereMask,
            withChannel kMidiNoteOff ((s.tracks track).playing m).outCh, m, 0⟩ : MidiMsg).d1
            ∉ xs := hx
        rw [iD _ hd1, hmsgs]
        by_cases hc : ((s.tracks track).playing m).active ∧
            ¬ isNoteSharedByOtherTrack s track m ((s.tracks track).playing m).outCh
              ((s.tracks track).playing m).whereMask
        · rw [if_pos hc]
          simp only [List.mem_append, List.mem_singleton]
          constructor
          · intro _
            exact Or.inr hc
          · intro _
            exact Or.inr (by trivial)
        · rw [if_neg hc]
          simp only [List.append_nil]
          constructor
          · exact fun h => Or.inl h
          · rintro (h | h)
            · exact h
            · exact absurd h hc
      · have hmx : m ≠ x := fun h => hx (h ▸ hmem)
        have hpm : ((sendTrackNotesOffStep track (s, msgs0) x).1.tracks track).playing m =
            (s.tracks track).playing m := by
          rw [htr]
          exact Function.update_noteq hmx _ _
        have hsh : isNoteSharedByOtherTrack (sendTrackNotesOffStep track (s, msgs0) x).1
              track m ((s.tracks track).playing m).outCh
              ((s.tracks track).playing m).whereMask =
            isNoteSharedByOtherTrack s track m ((s.tracks track).playing m).outCh
              ((s.tracks track).playing m).whereMask :=
          shared_congr s _ track m _ _ hN1 hA1
        have hE := iE m hmem
        rw [hpm] at hE
        rw [hE, hsh, hmsgs]
        by_cases hc : ((s.tracks track).playing x).active ∧
            ¬ isNoteSharedByOtherTrack s track x ((s.tracks track).playing x).outCh
              ((s.tracks track).playing x).whereMask
        · rw [if_pos hc]
          simp only [List.mem_append, List.mem_singleton]
          constructor
          · rintro ((h | heq) | h)
            · exact Or.inl h
            · exact absurd (congrArg MidiMsg.d1 heq) (by simpa using hmx)
            · exact Or.inr h
          · rintro (h | h)
            · exact Or.inl (Or.inl h)
            · exact Or.inr h
        · rw [if_neg hc]
          simp

set_option maxRecDepth 4000 in
/-- Claim C2: for every note whose playing slot is active on track `t`,
the track-level all-notes-off emits that note's Note Off (on the slot's
stored channel and destination) precisely when no other track holds an
active playing entry for the same note on the same channel and
destination; in either case the slot is deactivated and `activeNotes`
zeroed. -/
theorem C2_track_notes_off (s : AlgState) (track n : Nat)
    (ht : track < s.numTracks) (hn : n < 128)
    (hact : ((s.tracks track).playing n).active) :
    ((⟨((s.tracks track).playing n).whereMask,
        withChannel kMidiNoteOff ((s.tracks track).playing n).outCh, n, 0⟩ : MidiMsg)
      ∈ (sendTrackNotesOff s track).2 ↔
      ¬ isNoteSharedByOtherTrack s track n ((s.tracks track).playing n).outCh
          ((s.tracks track).playing n).whereMask) ∧
    ¬ (((sendTrackNotesOff s track).1.tracks track).playing n).active ∧
    ((sendTrackNotesOff s track).1.tracks track).activeNotes n = 0 := by
  obtain ⟨fA, fN, fB, fC, fD, fE⟩ :=
    stno_fold track (List.range 128) (List.nodup_range 128) s []
  unfold sendTrackNotesOff
  dsimp only
  rw [setTrack_tracks_self]
  refine ⟨?_, ?_, ?_⟩
  · rw [(fE n (List.mem_range.mpr hn))]
    simp [hact]
  · obtain ⟨c1, c2⟩ := fC n (List.mem_range.mpr hn)
    exact c1
  · obtain ⟨c1, c2⟩ := fC n (List.mem_range.mpr hn)
    exact c2

/-- Witness for C2 on the shared-note state at track 0, note 60. -/
theorem C2_witness :
    ((⟨((sharedNoteState.tracks 0).playing 60).whereMask,
        withChannel kMidiNoteOff ((sharedNoteState.tracks 0).playing 60).outCh, 60, 0⟩ : MidiMsg)
      ∈ (sendTrackNotesOff sharedNoteState 0).2 ↔
      ¬ isNoteSharedByOtherTrack sharedNoteState 0 60
          ((sharedNoteState.tracks 0).playing 60).outCh
          ((sharedNoteState.tracks 0).playing 60).whereMask) ∧
    ¬ (((sendTrackNotesOff sharedNoteState 0).1.tracks 0).playing 60).active ∧
    ((sendTrackNotesOff sharedNoteState 0).1.tracks 0).activeNotes 60 = 0 :=
  C2_track_notes_off sharedNoteState 0 60 (by decide) (by decide) (by decide)

lemma calcQuantizedDuration_le (d q : Nat) : calcQuantizedDuration d q ≤ d + q := by
  unfold calcQuantizedDuration
  split
  · omega
  · dsimp only
    split
    · omega
    · have := Nat.div_mul_le_self (d + q / 2) q
      omega

lemma calcQuantizedDuration_pos (d q : Nat) (hd : 1 ≤ d) :
    1 ≤ calcQuantizedDuration d q := by
  unfold calcQuantizedDuration
  split
  · omega
  · dsimp only
    split
    · omega
    · omega

lemma emod_as_mod (a b : Int) : a.emod b = a % b := rfl

lemma liveDuration_eq (endStep effStart L q qs : Nat)
    (hq1 : 1 ≤ q) (hq2 : q ≤ 128) (hqs1 : 1 ≤ qs) (hqs2 : qs ≤ L)
    (hL2 : L ≤ 128) (hend : endStep ≤ L) (hes : effStart ≤ L) :
    (let d0 : Int := (endStep : Int) - (effStart : Int)
     let d1 : Int := if d0 < 0 then d0 + (L : Int) else d0
     let d2 : Int := if d1 < 1 then 1 else d1
     let d3 : Int := (calcQuantizedDuration d2.toNat q : Int)
     let maxD : Int := (L : Int) - (qs : Int) + 1
     ((if d3 > maxD then maxD else d3).emod 65536).toNat) =
    claimedLiveDuration endStep effStart L q qs := by
  dsimp only
  unfold claimedLiveDuration
  dsimp only
  have hm : ∀ x : Int, max 1 x = if x < 1 then 1 else x := by
    intro x
    rcases le_or_lt 1 x with h | h
    · rw [max_eq_right h, if_neg (by omega)]
    · rw [max_eq_left (by omega), if_pos h]
  rw [hm]
  set d1 : Int := if ((endStep : Int) - (effStart : Int)) < 0 then
      (endStep : Int) - (effStart : Int) + (L : Int) else
      (endStep : Int) - (effStart : Int) with hd1
  have hd1b : 0 ≤ d1 ∧ d1 ≤ L := by
    rw [hd1]
    split <;> omega
  set d2 : Int := if d1 < 1 then 1 else d1 with hd2
  have hd2b : 1 ≤ d2 ∧ d2 ≤ L := by
    rw [hd2]
    split <;> omega
  have hcqle := calcQuantizedDuration_le d2.toNat q
  have hcqpos := calcQuantizedDuration_pos d2.toNat q (by omega)
  set cq : Nat := calcQuantizedDuration d2.toNat q with hcq
  split
  · rw [emod_as_mod, Int.emod_eq_of_lt (by omega) (by omega)]
    omega
  · rw [emod_as_mod, Int.emod_eq_of_lt (by omega) (by omega)]
    omega

/-- Claim C5: on live-recording note-off the stored event's duration is the
claimed wrap, floor, round, clamp chain of the snapped end step against
the held start step, the event lands on the division-snapped start step of
the held track, it is appended only when that step does not already hold
the same note (and has room), and the held slot is released. -/
theorem C5_record_note_off (s : AlgState) (ctx : RecordingContext) (note : Nat)
    (hheld : (s.heldNotes note).active)
    (hq1 : 1 ≤ (s.heldNotes note).quantize) (hq2 : (s.heldNotes note).quantize ≤ 128)
    (hqs1 : 1 ≤ (s.heldNotes note).quantizedStep)
    (hqs2 : (s.heldNotes note).quantizedStep ≤ (s.heldNotes note).loopLen)
    (hL1 : 1 ≤ (s.heldNotes note).loopLen) (hL2 : (s.heldNotes note).loopLen ≤ 128)
    (hes : (s.heldNotes note).effectiveStep ≤ (s.heldNotes note).loopLen)
    (hraw : ctx.rawStep ≤ (s.heldNotes note).loopLen)
    (htrack : (s.heldNotes note).track < MAX_TRACKS) :
    ¬ (((recordNoteOff s ctx note).heldNotes note)).active ∧
    (hasNoteEvent ((s.tracks (s.heldNotes note).track).steps
        ((s.heldNotes note).quantizedStep - 1)) note →
      ((recordNoteOff s ctx note).tracks (s.heldNotes note).track).steps
          ((s.heldNotes note).quantizedStep - 1) =
        (s.tracks (s.heldNotes note).track).steps ((s.heldNotes note).quantizedStep - 1)) ∧
    (¬ hasNoteEvent ((s.tracks (s.heldNotes note).track).steps
        ((s.heldNotes note).quantizedStep - 1)) note →
      ((s.tracks (s.heldNotes note).track).steps
        ((s.heldNotes note).quantizedStep - 1)).events.length < MAX_EVENTS_PER_STEP →
      ((recordNoteOff s ctx note).tracks (s.heldNotes note).track).steps
          ((s.heldNotes note).quantizedStep - 1) =
        ⟨((s.tracks (s.heldNotes note).track).steps
            ((s.heldNotes note).quantizedStep - 1)).events ++
          [⟨note, (s.heldNotes note).velocity,
            claimedLiveDuration
              (snapStepSubclock ctx.rawStep ctx.stepFraction ctx.snapThreshold
                (s.heldNotes note).loopLen)
              (s.heldNotes note).effectiveStep (s.heldNotes note).loopLen
              (s.heldNotes note).quantize (s.heldNotes note).quantizedStep⟩]⟩) := by
  unfold recordNoteOff
  rw [if_neg (fun h => h hheld)]
  dsimp only
  have hsafeT : safeTrackIndex ((s.heldNotes note).track : Int) = (s.heldNotes note).track := by
    unfold safeTrackIndex
    rw [if_neg (by omega), if_neg (by simp [MAX_TRACKS] at htrack ⊢; omega)]
    omega
  have hsafeS : safeStepIndex (((s.heldNotes note).quantizedStep : Int) - 1) =
      (s.heldNotes note).quantizedStep - 1 := by
    unfold safeStepIndex
    rw [if_neg (by omega), if_neg (by simp [MAX_STEPS]; omega)]
    omega
  rw [hsafeT, hsafeS]
  -- the end step is within the loop
  have hend : snapStepSubclock ctx.rawStep ctx.stepFraction ctx.snapThreshold
      (s.heldNotes note).loopLen ≤ (s.heldNotes note).loopLen := by
    unfold snapStepSubclock
    split
    · exact hraw
    · dsimp only
      split <;> omega
  -- the computed duration equals the claimed duration and stays below 2^16
  have hdur : ∀ d0 : Int, d0 = ((snapStepSubclock ctx.rawStep ctx.stepFraction
        ctx.snapThreshold (s.heldNotes note).loopLen : Nat) : Int) -
        ((s.heldNotes note).effectiveStep : Int) → True := fun _ _ => trivial
  constructor
  · split
    · simp [setTrack]
    · simp [setTrack]
  constructor
  · intro hhas
    rw [if_neg (fun h => h hhas)]
    rw [setTrack_tracks_self]
  · intro hhas hroom
    rw [if_pos hhas]
    rw [setTrack_tracks_self]
    dsimp only
    rw [Function.update_same]
    unfold addEvent
    rw [if_pos ⟨hroom, hhas⟩]
    congr 1
    congr 1
    congr 1
    congr 1
    exact liveDuration_eq _ _ _ _ _ hq1 hq2 hqs1 hqs2 hL2 hend hes

theorem C5_witness :
    ¬ (((recordNoteOff c5State c5Ctx 60).heldNotes 60)).active ∧
    (hasNoteEvent ((c5State.tracks (c5State.heldNotes 60).track).steps
        ((c5State.heldNotes 60).quantizedStep - 1)) 60 →
      ((recordNoteOff c5State c5Ctx 60).tracks (c5State.heldNotes 60).track).steps
          ((c5State.heldNotes 60).quantizedStep - 1) =
        (c5State.tracks (c5State.heldNotes 60).track).steps
          ((c5State.heldNotes 60).quantizedStep - 1)) ∧
    (¬ hasNoteEvent ((c5State.tracks (c5State.heldNotes 60).track).steps
        ((c5State.heldNotes 60).quantizedStep - 1)) 60 →
      ((c5State.tracks (c5State.heldNotes 60).track).steps
        ((c5State.heldNotes 60).quantizedStep - 1)).events.length < MAX_EVENTS_PER_STEP →
      ((recordNoteOff c5State c5Ctx 60).tracks (c5State.heldNotes 60).track).steps
          ((c5State.heldNotes 60).quantizedStep - 1) =
        ⟨((c5State.tracks (c5State.heldNotes 60).track).steps
            ((c5State.heldNotes 60).quantizedStep - 1)).events ++
          [⟨60, (c5State.heldNotes 60).velocity,
            claimedLiveDuration
              (snapStepSubclock c5Ctx.rawStep c5Ctx.stepFraction c5Ctx.snapThreshold
                (c5State.heldNotes 60).loopLen)
              (c5State.heldNotes 60).effectiveStep (c5State.heldNotes 60).loopLen
              (c5State.heldNotes 60).quantize (c5State.heldNotes 60).quantizedStep⟩]⟩) :=
  C5_record_note_off c5State c5Ctx 60 (by decide) (by decide) (by decide) (by decide)
    (by decide) (by decide) (by decide) (by decide) (by decide) (by decide)

lemma statusBits : ∀ c : Fin 16,
    (0x90 ||| c.val) &&& 0xF0 = 0x90 ∧ (0x90 ||| c.val) &&& 0x0F = c.val ∧
    (0x80 ||| c.val) &&& 0xF0 = 0x80 ∧ (0x80 ||| c.val) &&& 0x0F = c.val := by
  decide

lemma c10_route_on (s : AlgState) (n : Nat) (ch : Fin 16) :
    midiMessage s (0x90 ||| ch.val) n 0 = c10Route s ch.val n 0x90 := by
  obtain ⟨ha, hca, hb, hcb⟩ := statusBits ch
  unfold midiMessage c10Route
  dsimp only
  rw [ha, hca]
  rfl

lemma c10_route_off (s : AlgState) (n : Nat) (ch : Fin 16) :
    midiMessage s (0x80 ||| ch.val) n 0 = c10Route s ch.val n 0x80 := by
  obtain ⟨ha, hca, hb, hcb⟩ := statusBits ch
  unfold midiMessage c10Route
  dsimp only
  rw [hb, hcb]
  rfl

lemma c10Route_fst_status (s : AlgState) (ch n st1 st2 : Nat) :
    (c10Route s ch n st1).1 = (c10Route s ch n st2).1 := by
  unfold c10Route
  dsimp only
  repeat' split
  all_goals rfl

/-- Claim C10: a Note On (status `0x90`) with velocity byte zero drives the
MIDI-in handler to exactly the state a Note Off (status `0x80`) on the same
channel with the same note would: the note is translated through the stored
note map, the held-input display state is cleared, and the message is routed
to the step-record or live-record note-off path identically. -/
theorem C10_velocity_zero_note_on (s : AlgState) (n : Nat) (ch : Fin 16) :
    (midiMessage s (0x90 ||| ch.val) n 0).1 = (midiMessage s (0x80 ||| ch.val) n 0).1 := by
  rw [c10_route_on, c10_route_off]
  exact c10Route_fst_status s ch.val n 0x90 0x80

lemma foldl_preserves {α : Type} {β : Type} (P : α → Prop) (f : α → β → α)
    (hf : ∀ a b, P a → P (f a b)) :
    ∀ (l : List β) (a : α), P a → P (l.foldl f a) := by
  intro l
  induction l with
  | nil => intro a h; exact h
  | cons x xs ih =>
    intro a h
    rw [List.foldl_cons]
    exact ih _ (hf a x h)

lemma pndStep_noteInv (track w : Nat) (oc : Int) (s : AlgState) (msgs : List MidiMsg)
    (n : Nat) (h : noteInv (s.tracks track)) :
    noteInv ((processNoteDurationsStep track w oc (s, msgs) n).1.tracks track) := by
  unfold processNoteDurationsStep
  dsimp only
  split
  · exact h
  · split
    next hact hrem =>
      rw [setTrack_tracks_self]
      split
      · intro m hm
        dsimp only
        by_cases hmn : m = n
        · subst hmn
          simp
        · rw [Function.update_noteq hmn, Function.update_noteq hmn]
          exact h m hm
      · intro m hm
        dsimp only
        by_cases hmn : m = n
        · subst hmn
          simp
        · rw [Function.update_noteq hmn, Function.update_noteq hmn]
          exact h m hm
    next hact hrem =>
      rw [setTrack_tracks_self]
      intro m hm
      dsimp only
      by_cases hmn : m = n
      · subst hmn
        constructor
        · rw [Function.update_same]
          exact (h m hm).1
        · rw [Function.update_same]
          intro _
          dsimp only
          omega
      · rw [Function.update_noteq hmn]
        exact h m hm

lemma pnd_fold_noteInv (track w : Nat) (oc : Int) :
    ∀ (l : List Nat) (s : AlgState) (msgs : List MidiMsg), noteInv (s.tracks track) →
      noteInv ((l.foldl (processNoteDurationsStep track w oc) (s, msgs)).1.tracks track) := by
  intro l
  induction l with
  | nil => intro s msgs h; exact h
  | cons x xs ih =>
    intro s msgs h
    rw [List.foldl_cons]
    exact ih _ _ (pndStep_noteInv track w oc s msgs x h)

set_option maxRecDepth 4000 in
lemma pnd_noteInv (s : AlgState) (track w : Nat) (oc : Int)
    (h : noteInv (s.tracks track)) :
    noteInv ((processNoteDurations s track w oc).1.tracks track) := by
  unfold processNoteDurations
  exact pnd_fold_noteInv track w oc (List.range 128) s [] h

lemma emit_noteInv (s : AlgState) (track : Nat) (ev : NoteEvent)
    (velOffset humanize outCh : Int) (whereMask : Nat) (noteShift : Int)
    (hvel : 1 ≤ clamp ((ev.velocity : Int) + velOffset) 0 127)
    (hdur : 1 ≤ ev.duration)
    (h : noteInv (s.tracks track)) :
    noteInv ((emitNote s track ev velOffset humanize outCh whereMask noteShift).1.tracks track) := by
  unfold emitNote
  dsimp only
  split
  · split
    · rw [setTrack_tracks_self]
      intro m hm
      dsimp only
      by_cases hmn : m = quantizeToScale (clamp ((ev.note : Int) + noteShift) 0 127).toNat
          (s.v kParamScaleRoot) (s.v kParamScaleType)
      · subst hmn
        rw [Function.update_same, Function.update_same]
        refine ⟨iff_of_true ?_ rfl, fun _ => ?_⟩
        · dsimp only
          omega
        · exact hdur
      · rw [Function.update_noteq hmn, Function.update_noteq hmn]
        exact h m hm
    · unfold scheduleDelayedNote
      dsimp only
      split
      · dsimp only
        rw [setTrack_tracks_self]
        intro m hm
        exact h m hm
      · rw [setTrack_tracks_self]
        intro m hm
        exact h m hm
  · dsimp only
    rw [if_pos rfl, setTrack_tracks_self]
    intro m hm
    dsimp only
    by_cases hmn : m = quantizeToScale (clamp ((ev.note : Int) + noteShift) 0 127).toNat
        (s.v kParamScaleRoot) (s.v kParamScaleType)
    · subst hmn
      rw [Function.update_same, Function.update_same]
      refine ⟨iff_of_true ?_ rfl, fun _ => ?_⟩
      · dsimp only
        omega
      · exact hdur
    · rw [Function.update_noteq hmn, Function.update_noteq hmn]
      exact h m hm

lemma pdnStep_noteInv (dd16 : Nat) (s : AlgState) (msgs : List MidiMsg) (i : Nat)
    (hp : poolInv s) (h : ∀ t, noteInv (s.tracks t)) :
    (∀ t, noteInv ((processDelayedNotesStep dd16 (s, msgs) i).1.tracks t)) ∧
    poolInv (processDelayedNotesStep dd16 (s, msgs) i).1 := by
  unfold processDelayedNotesStep
  dsimp only
  split
  next hact => exact ⟨h, hp⟩
  next hact =>
    have hactive : (s.delayedNotes i).active = true := by
      by_cases hc : (s.delayedNotes i).active = true
      · exact hc
      · exact absurd hc (fun hc2 => hact (fun h3 => hc2 h3))
    split
    next hdelay =>
      constructor
      · intro t
        dsimp only
        by_cases htt : t = safeTrackIndex ((s.delayedNotes i).track : Int)
        · subst htt
          rw [setTrack_tracks_self]
          intro m hm
          dsimp only
          by_cases hmn : m = safeNoteIndex ((s.delayedNotes i).note : Int)
          · subst hmn
            rw [Function.update_same, Function.update_same]
            refine ⟨iff_of_true ?_ rfl, fun _ => ?_⟩
            · dsimp only
              exact (hp i hactive).1
            · exact (hp i hactive).2
          · rw [Function.update_noteq hmn, Function.update_noteq hmn]
            exact h _ m hm
        · rw [setTrack_tracks_other _ _ _ _ htt]
          exact h t
      · intro j hj
        dsimp only at hj ⊢
        by_cases hji : j = i
        · subst hji
          rw [Function.update_same] at hj
          exact absurd hj (by simp)
        · rw [Function.update_noteq hji] at hj ⊢
          exact hp j hj
    next hdelay =>
      constructor
      · intro t
        exact h t
      · intro j hj
        dsimp only at hj ⊢
        by_cases hji : j = i
        · subst hji
          rw [Function.update_same] at hj ⊢
          exact hp j hactive
        · rw [Function.update_noteq hji] at hj ⊢
          exact hp j hj

lemma pdn_fold_noteInv (dd16 : Nat) :
    ∀ (l : List Nat) (s : AlgState) (msgs : List MidiMsg),
      poolInv s → (∀ t, noteInv (s.tracks t)) →
      (∀ t, noteInv ((l.foldl (processDelayedNotesStep dd16) (s, msgs)).1.tracks t)) ∧
      poolInv (l.foldl (processDelayedNotesStep dd16) (s, msgs)).1 := by
  intro l
  induction l with
  | nil => intro s msgs hp h; exact ⟨h, hp⟩
  | cons x xs ih =>
    intro s msgs hp h
    rw [List.foldl_cons]
    obtain ⟨h1, h2⟩ := pdnStep_noteInv dd16 s msgs x hp h
    exact ih _ _ h2 h1

set_option maxRecDepth 4000 in
lemma pdn_noteInv (s : AlgState) (dt : ℚ) (hp : poolInv s)
    (h : ∀ t, noteInv (s.tracks t)) :
    ∀ t, noteInv ((processDelayedNotes s dt).1.tracks t) := by
  unfold processDelayedNotes
  dsimp only
  exact (pdn_fold_noteInv _ (List.range MAX_DELAYED_NOTES) s [] hp h).1

lemma stop_noteInv (s : AlgState) (t : Nat) (ht : t < s.numTracks) :
    noteInv ((handleTransportStop s).1.tracks t) := by
  unfold handleTransportStop
  dsimp only
  split
  next hrec =>
    rw [(finalizeHeldNotes_frame s).2.1, if_pos ht]
    intro m hm
    simp [hm]
  next hrec =>
    intro m hm
    simp [hm]

lemma panic_noteInv (s : AlgState) (t : Nat) (ht : t < s.numTracks) :
    noteInv ((handlePanicOnWrap s).1.tracks t) := by
  unfold handlePanicOnWrap
  dsimp only
  rw [if_pos ht]
  intro m hm
  simp [hm]

set_option maxRecDepth 4000 in
lemma stno_noteInv (s : AlgState) (track : Nat) :
    noteInv ((sendTrackNotesOff s track).1.tracks track) := by
  unfold sendTrackNotesOff
  dsimp only
  obtain ⟨_, _, _, iC, _, _⟩ :=
    stno_fold track (List.range 128) (List.nodup_range 128) s []
  rw [setTrack_tracks_self]
  intro m hm
  dsimp only
  obtain ⟨hc1, hc2⟩ := iC m (List.mem_range.mpr hm)
  rw [hc2]
  refine ⟨iff_of_false (by omega) ?_, fun hf => ?_⟩
  · intro hc
    exact hc1 hc
  · exact absurd hf hc1

set_option maxRecDepth 10000 in
/-- Claim C1 counterexample: the pairwise equivalence `active ↔
activeNotes > 0 ↔ remaining > 0` is not re-established by the cited
operations.  Expiry in `processNoteDurations` deactivates a note but leaves
its stale `remaining = 1` positive, and `emitNote` with a velocity offset
that clamps the velocity to 0 activates a slot whose `activeNotes` entry
is 0. -/
theorem C1_counterexample :
    (noteInv (c1ExpireState.tracks 0) ∧
      ¬ ((((processNoteDurations c1ExpireState 0 1 1).1.tracks 0).playing 60).active = true) ∧
      0 < (((processNoteDurations c1ExpireState 0 1 1).1.tracks 0).playing 60).remaining) ∧
    ((((emitNote (initState 1 (fun _ => 0)) 0 ⟨60, 1, 4⟩ (-64) 0 1 1 0).1.tracks 0).playing
        60).active = true ∧
      ((emitNote (initState 1 (fun _ => 0)) 0 ⟨60, 1, 4⟩ (-64) 0 1 1 0).1.tracks 0).activeNotes
        60 = 0) := by
  constructor
  · refine ⟨by decide, ?_, ?_⟩
    · decide
    · decide
  · exact ⟨by decide, by decide⟩

/-- Claim C1 (amended): for every track and note, `activeNotes[n] > 0` is
equivalent to `playing[n].active`, and an active slot has `remaining > 0`
(an inactive slot may keep a stale positive `remaining`).  This invariant
is preserved by duration processing, by immediate emission and the
delayed-note drain provided the clamped velocity and the duration are
positive, and is established outright by transport stop, panic, and
track-level all-notes-off. -/
theorem C1_note_state_invariant (s : AlgState) (track : Nat) (ev : NoteEvent)
    (velOffset humanize outCh : Int) (whereMask : Nat) (noteShift : Int) (dt : ℚ)
    (hInv : ∀ t, noteInv (s.tracks t))
    (hvel : 1 ≤ clamp ((ev.velocity : Int) + velOffset) 0 127)
    (hdur : 1 ≤ ev.duration)
    (hpool : poolInv s) :
    noteInv ((processNoteDurations s track whereMask outCh).1.tracks track) ∧
    noteInv ((emitNote s track ev velOffset humanize outCh whereMask noteShift).1.tracks track) ∧
    (∀ t, noteInv ((processDelayedNotes s dt).1.tracks t)) ∧
    (∀ t, t < s.numTracks → noteInv ((handleTransportStop s).1.tracks t)) ∧
    (∀ t, t < s.numTracks → noteInv ((handlePanicOnWrap s).1.tracks t)) ∧
    noteInv ((sendTrackNotesOff s track).1.tracks track) :=
  ⟨pnd_noteInv s track whereMask outCh (hInv track),
   emit_noteInv s track ev velOffset humanize outCh whereMask noteShift hvel hdur (hInv track),
   pdn_noteInv s dt hpool hInv,
   fun t ht => stop_noteInv s t ht,
   fun t ht => panic_noteInv s t ht,
   stno_noteInv s track⟩

set_option maxRecDepth 10000 in
/-- Witness for C1 at the freshly constructed one-track state. -/
theorem C1_witness :
    noteInv ((processNoteDurations (initState 1 (fun _ => 0)) 0 1 1).1.tracks 0) ∧
    noteInv ((emitNote (initState 1 (fun _ => 0)) 0 ⟨60, 100, 4⟩ 0 0 1 1 0).1.tracks 0) ∧
    (∀ t, noteInv ((processDelayedNotes (initState 1 (fun _ => 0)) 1).1.tracks t)) ∧
    (∀ t, t < (initState 1 (fun _ => 0)).numTracks →
      noteInv ((handleTransportStop (initState 1 (fun _ => 0))).1.tracks t)) ∧
    (∀ t, t < (initState 1 (fun _ => 0)).numTracks →
      noteInv ((handlePanicOnWrap (initState 1 (fun _ => 0))).1.tracks t)) ∧
    noteInv ((sendTrackNotesOff (initState 1 (fun _ => 0)) 0).1.tracks 0) :=
  C1_note_state_invariant (initState 1 (fun _ => 0)) 0 ⟨60, 100, 4⟩ 0 0 1 1 0 1
    (fun t => (by decide : noteInv initTrack)) (by decide) (by decide) (fun i h => nomatch h)

lemma addEvent_stepOk (evs : StepEvents) (note velocity duration : Nat)
    (h : stepOk evs) : stepOk (addEvent evs note velocity duration) := by
  unfold addEvent
  split
  next hc =>
    obtain ⟨hlen, hhas⟩ := hc
    have hhas2 : ∀ e ∈ evs.events, e.note ≠ note := by
      intro e he heq
      apply hhas
      unfold hasNoteEvent
      rw [List.any_eq_true]
      exact ⟨e, he, by simp [heq]⟩
    constructor
    · dsimp only
      rw [List.length_append]
      simp only [List.length_singleton]
      omega
    · dsimp only
      rw [List.map_append, List.nodup_append]
      refine ⟨h.2, List.nodup_singleton _, ?_⟩
      intro a ha hb
      rw [List.map_singleton, List.mem_singleton] at hb
      subst hb
      obtain ⟨e, he, hea⟩ := List.mem_map.mp ha
      exact hhas2 e he hea
  next => exact h

lemma stepOk_update (f : Nat → StepEvents) (idx : Nat) (evs : StepEvents)
    (hf : ∀ i, stepOk (f i)) (he : stepOk evs) :
    ∀ i, stepOk (Function.update f idx evs i) := by
  intro i
  by_cases hii : i = idx
  · subst hii
    rw [Function.update_same]
    exact he
  · rw [Function.update_noteq hii]
    exact hf i

lemma setTrack_stepsOk (s : AlgState) (track : Nat) (ts : TrackState)
    (hs : stepsOk s) (hts : tsOk ts) : stepsOk (setTrack s track ts) := by
  intro t
  by_cases htt : t = track
  · subst htt
    rw [setTrack_tracks_self]
    exact hts
  · rw [setTrack_tracks_other _ _ _ _ htt]
    exact hs t

lemma clearTrackEvents_tsOk (ts : TrackState) : tsOk (clearTrackEvents ts) :=
  fun _ => (by decide : stepOk ⟨[]⟩)

lemma recordNoteOff_stepsOk (s : AlgState) (ctx : RecordingContext) (note : Nat)
    (hs : stepsOk s) : stepsOk (recordNoteOff s ctx note) := by
  unfold recordNoteOff
  dsimp only
  split
  · exact hs
  · refine fun t => setTrack_stepsOk s _ _ hs ?_ t
    split
    · intro i
      dsimp only
      exact stepOk_update _ _ _ (fun j => hs _ j) (addEvent_stepOk _ _ _ _ (hs _ _)) i
    · exact hs _

lemma stepRecordNoteOn_stepsOk (s : AlgState) (track note velocity : Nat)
    (hs : stepsOk s) : stepsOk (stepRecordNoteOn s track note velocity) := by
  unfold stepRecordNoteOn
  dsimp only
  split
  · exact hs
  · have hs1 : stepsOk (setTrack s track
        { s.tracks track with
          cache := (getCachedQuantize s.v track (s.tracks track).cache).2.2 }) :=
      setTrack_stepsOk s track _ hs (fun i => hs track i)
    split
    · refine fun t => setTrack_stepsOk _ _ _ hs1 ?_ t
      intro i
      dsimp only
      exact stepOk_update _ _ _ (fun j => hs1 _ j) (addEvent_stepOk _ _ _ _ (hs1 _ _)) i
    · exact hs1

lemma fhnStep_stepsOk (s : AlgState) (n : Nat) (hs : stepsOk s) :
    stepsOk (finalizeHeldNotesStep s n) := by
  unfold finalizeHeldNotesStep
  dsimp only
  split
  · exact hs
  · refine fun t => setTrack_stepsOk s _ _ hs ?_ t
    split
    · intro i
      dsimp only
      exact stepOk_update _ _ _ (fun j => hs _ j) (addEvent_stepOk _ _ _ _ (hs _ _)) i
    · exact hs _

lemma fhn_fold_stepsOk :
    ∀ (l : List Nat) (s : AlgState), stepsOk s →
      stepsOk (l.foldl finalizeHeldNotesStep s) := by
  intro l
  induction l with
  | nil => intro s hs; exact hs
  | cons x xs ih =>
    intro s hs
    rw [List.foldl_cons]
    exact ih _ (fhnStep_stepsOk s x hs)

set_option maxRecDepth 4000 in
lemma finalizeHeldNotes_stepsOk (s : AlgState) (hs : stepsOk s) :
    stepsOk (finalizeHeldNotes s) := by
  unfold finalizeHeldNotes
  exact fhn_fold_stepsOk (List.range 128) s hs

lemma gnsStep_tsOk (bias range noteRand velVar gateRand density : Int) (quantize : Nat)
    (scaleRoot scaleType : Int) (ts : TrackState) (sPos : Nat) (h : tsOk ts) :
    tsOk (generateNewStep bias range noteRand velVar gateRand density quantize
      scaleRoot scaleType ts sPos) := by
  unfold generateNewStep
  dsimp only
  split
  · exact h
  · split
    · intro i
      dsimp only
      exact h i
    · intro i
      dsimp only
      exact stepOk_update _ _ _ h (addEvent_stepOk _ _ _ _ (h _)) i

lemma gnties_tsOk (ties : Int) (loopLen : Nat) (ts : TrackState) (sIdx : Nat)
    (h : tsOk ts) : tsOk (generateNewTiesStep ties loopLen ts sIdx) := by
  unfold generateNewTiesStep
  dsimp only
  split
  · exact h
  · split
    · intro i
      dsimp only
      exact h i
    · split
      · intro i
        dsimp only
        exact h i
      · intro i
        dsimp only
        refine stepOk_update _ _ _ h ?_ i
        constructor
        · dsimp only
          rw [List.length_map]
          exact (h sIdx).1
        · dsimp only
          rw [List.map_map]
          exact (h sIdx).2

lemma foldl_tsOk {β : Type} (f : TrackState → β → TrackState)
    (hf : ∀ ts b, tsOk ts → tsOk (f ts b)) :
    ∀ (l : List β) (ts : TrackState), tsOk ts → tsOk (l.foldl f ts) := by
  intro l
  induction l with
  | nil => intro ts h; exact h
  | cons x xs ih =>
    intro ts h
    rw [List.foldl_cons]
    exact ih _ (hf ts x h)

lemma generateNew_stepsOk (s : AlgState) (track : Nat) (hs : stepsOk s) :
    stepsOk (generateNew s track) := by
  unfold generateNew
  dsimp only
  refine fun t => setTrack_stepsOk s _ _ hs ?_ t
  split
  · exact foldl_tsOk _ (fun ts b hb => gnties_tsOk _ _ ts b hb) _ _
      (foldl_tsOk _ (fun ts b hb => gnsStep_tsOk _ _ _ _ _ _ _ _ _ ts b hb) _ _
        (clearTrackEvents_tsOk _))
  · exact foldl_tsOk _ (fun ts b hb => gnsStep_tsOk _ _ _ _ _ _ _ _ _ ts b hb) _ _
      (clearTrackEvents_tsOk _)

lemma generateReorder_stepsOk (s : AlgState) (track : Nat) (hs : stepsOk s) :
    stepsOk (generateReorder s track) := by
  unfold generateReorder
  dsimp only
  split
  · refine fun t => setTrack_stepsOk s _ _ hs ?_ t
    exact fun i => hs track i
  · refine fun t => setTrack_stepsOk s _ _ hs ?_ t
    refine foldl_tsOk _ ?_ _ _ (clearTrackEvents_tsOk _)
    intro acc pe hacc
    dsimp only
    split
    · intro i
      dsimp only
      exact stepOk_update _ _ _ hacc (addEvent_stepOk _ _ _ _ (hacc _)) i
    · exact hacc

lemma clampStepDurations_stepOk (evs : StepEvents) (maxDur : Nat) (h : stepOk evs) :
    stepOk (clampStepDurations evs maxDur) := by
  unfold clampStepDurations
  constructor
  · dsimp only
    rw [List.length_map]
    exact h.1
  · dsimp only
    rw [List.map_map]
    have heq : ((fun e => e.note) ∘ fun (e : NoteEvent) =>
        if e.duration > maxDur then { e with duration := maxDur } else e) =
        fun (e : NoteEvent) => e.note := by
      funext e
      dsimp only [Function.comp]
      split
      · rfl
      · rfl
    rw [heq]
    exact h.2

lemma generateInvert_stepsOk (s : AlgState) (track : Nat) (hs : stepsOk s) :
    stepsOk (generateInvert s track) := by
  unfold generateInvert
  dsimp only
  refine fun t => setTrack_stepsOk s _ _ hs ?_ t
  refine foldl_tsOk _ ?_ _ _ ?_
  · intro acc k hacc i
    dsimp only
    refine stepOk_update _ _ _ (fun j => ?_) ?_ i
    · refine stepOk_update _ _ _ (fun j2 => ?_) ?_ j
      · exact stepOk_update _ _ _ (stepOk_update _ _ _ hacc (hacc _)) (hacc _) j2
      · exact clampStepDurations_stepOk _ _
          (stepOk_update _ _ _ (stepOk_update _ _ _ hacc (hacc _)) (hacc _) _)
    · refine clampStepDurations_stepOk _ _ ?_
      refine stepOk_update _ _ _ (fun j2 => ?_) ?_ _
      · exact stepOk_update _ _ _ (stepOk_update _ _ _ hacc (hacc _)) (hacc _) j2
      · exact clampStepDurations_stepOk _ _
          (stepOk_update _ _ _ (stepOk_update _ _ _ hacc (hacc _)) (hacc _) _)
  · exact fun i => hs track i

lemma repitch_fold_len (bias spread r ty : Int) :
    ∀ (l : List NoteEvent) (done : List NoteEvent) (st : Nat),
      ((l.foldl (repitchEventStep bias spread r ty) (done, st)).1).length =
        done.length + l.length := by
  intro l
  induction l with
  | nil => intro done st; rfl
  | cons x xs ih =>
    intro done st
    rw [List.foldl_cons]
    have hlen1 : (repitchEventStep bias spread r ty (done, st) x).1.length =
        done.length + 1 := by
      unfold repitchEventStep
      dsimp only
      rw [List.length_append]
      simp
    have h3 : ((xs.foldl (repitchEventStep bias spread r ty)
        (repitchEventStep bias spread r ty (done, st) x)).1).length =
        (repitchEventStep bias spread r ty (done, st) x).1.length + xs.length :=
      ih _ _
    rw [List.length_cons]
    omega

lemma generateRepitch_len (s : AlgState) (track : Nat) (hs : stepsOk s) :
    ∀ t i, (((generateRepitch s track).tracks t).steps i).events.length ≤
      MAX_EVENTS_PER_STEP := by
  unfold generateRepitch
  dsimp only
  intro t i
  by_cases htt : t = track
  · subst htt
    rw [setTrack_tracks_self]
    have hfold : ∀ (l : List Nat) (ts : TrackState),
        (∀ j, ((ts.steps j).events).length ≤ MAX_EVENTS_PER_STEP) →
        ∀ j, (((l.foldl (fun ts sIdx =>
          { ts with
            steps := (Function.update ts.steps sIdx
              ⟨((ts.steps sIdx).events.foldl
                (repitchEventStep (s.v kParamGenBias)
                  ((s.v kParamGenRange * s.v kParamGenNoteRand).tdiv 100)
                  (s.v kParamScaleRoot) (s.v kParamScaleType))
                ([], ts.randState)).1⟩),
            randState := ((ts.steps sIdx).events.foldl
                (repitchEventStep (s.v kParamGenBias)
                  ((s.v kParamGenRange * s.v kParamGenNoteRand).tdiv 100)
                  (s.v kParamScaleRoot) (s.v kParamScaleType))
                ([], ts.randState)).2 }) ts).steps j).events).length ≤
          MAX_EVENTS_PER_STEP := by
      intro l
      induction l with
      | nil => intro ts h j; exact h j
      | cons x xs ih =>
        intro ts h j
        rw [List.foldl_cons]
        refine ih _ ?_ j
        intro k
        dsimp only
        by_cases hk : k = x
        · subst hk
          rw [Function.update_same]
          dsimp only
          rw [repitch_fold_len]
          simpa using h k
        · rw [Function.update_noteq hk]
          exact h k
    refine hfold (List.range (getCachedQuantize s.v t (s.tracks t).cache).2.1) _ ?_ i
    exact fun j => (hs t j).1
  · rw [setTrack_tracks_other _ _ _ _ htt]
    exact (hs t i).1

lemma deserialise_stepOk (entries : List (Int × Int × Int)) :
    stepOk (deserialiseStepEvents entries) := by
  unfold deserialiseStepEvents
  refine foldl_preserves stepOk _ ?_ _ _ (by decide)
  intro evs ent h
  dsimp only
  split
  · exact addEvent_stepOk _ _ _ _ h
  · exact h

set_option maxRecDepth 10000 in
/-- Claim C8 counterexample: `generateRepitch` overwrites event notes in
place with no duplicate check; with note randomness 0 and bias 72 it
repitches both notes of a two-note step to 72, breaking the distinct-note
invariant. -/
theorem C8_counterexample :
    stepOk ((c8State.tracks 0).steps 0) ∧
    ¬ stepOk (((generateRepitch c8State 0).tracks 0).steps 0) := by
  constructor
  · decide
  · decide

/-- Claim C8 (amended): steps hold at most `MAX_EVENTS_PER_STEP` events
with pairwise distinct notes; the invariant is preserved by every
`addEvent`-based writer (live recording note-off, held-note finalization,
step recording, the New and Reorder generators, deserialisation) and by
Invert, which permutes whole steps; Re-Pitch preserves only the length
bound and can duplicate note numbers on a step. -/
theorem C8_step_event_invariant (s : AlgState) (ctx : RecordingContext)
    (track note velocity : Nat) (entries : List (Int × Int × Int))
    (hs : stepsOk s) :
    stepsOk (recordNoteOff s ctx note) ∧
    stepsOk (stepRecordNoteOn s track note velocity) ∧
    stepsOk (finalizeHeldNotes s) ∧
    stepsOk (generateNew s track) ∧
    stepsOk (generateReorder s track) ∧
    stepsOk (generateInvert s track) ∧
    (∀ t i, (((generateRepitch s track).tracks t).steps i).events.length ≤
      MAX_EVENTS_PER_STEP) ∧
    stepOk (deserialiseStepEvents entries) :=
  ⟨recordNoteOff_stepsOk s ctx note hs,
   stepRecordNoteOn_stepsOk s track note velocity hs,
   finalizeHeldNotes_stepsOk s hs,
   generateNew_stepsOk s track hs,
   generateReorder_stepsOk s track hs,
   generateInvert_stepsOk s track hs,
   generateRepitch_len s track hs,
   deserialise_stepOk entries⟩

/-- Witness for C8 at the freshly constructed one-track state. -/
theorem C8_witness :
    stepsOk (recordNoteOff (initState 1 (fun _ => 0)) c5Ctx 60) ∧
    stepsOk (stepRecordNoteOn (initState 1 (fun _ => 0)) 0 60 100) ∧
    stepsOk (finalizeHeldNotes (initState 1 (fun _ => 0))) ∧
    stepsOk (generateNew (initState 1 (fun _ => 0)) 0) ∧
    stepsOk (generateReorder (initState 1 (fun _ => 0)) 0) ∧
    stepsOk (generateInvert (initState 1 (fun _ => 0)) 0) ∧
    (∀ t i, (((generateRepitch (initState 1 (fun _ => 0)) 0).tracks t).steps i).events.length ≤
      MAX_EVENTS_PER_STEP) ∧
    stepOk (deserialiseStepEvents [(60, 100, 4)]) :=
  C8_step_event_invariant (initState 1 (fun _ => 0)) c5Ctx 0 60 100 [(60, 100, 4)]
    (fun t i => (by decide : stepOk ⟨[]⟩))

end MidiLooper
